import Mathlib

/-!
Shallow embedding of the story-execution engine of the qay-web repository
(`src/unnamed/part_001` = the story runner `execute-story`, `src/worker/test-executor.ts`
= the run orchestrator, `src/src/lib/crypto.ts` = credential encryption),
together with theorems settling the frozen claims about it.

Browser, database and Node-library behaviour is abstracted into explicit
oracle parameters; every page operation, pause, screenshot, database write
and `executeStep`/`executeStory` invocation is recorded in an event trace so
that claims about what is (or is not) attempted become statements about the
trace.
-/

namespace Qay

/-! ## JavaScript string primitives used by the sources -/

/-- Boolean test that `pre` is a leading segment of `l`
    (JS `String.prototype.startsWith`, on character lists). -/
def leadsWith : List Char → List Char → Bool
  | [], _ => true
  | _ :: _, [] => false
  | a :: as, b :: bs => a == b && leadsWith as bs

/-- `needle` occurs contiguously inside the second list (JS `includes`). -/
def occursIn (needle : List Char) : List Char → Bool
  | [] => leadsWith needle []
  | b :: bs => leadsWith needle (b :: bs) || occursIn needle bs

/-- JS `haystack.includes(needle)`. -/
def jsIncludes (haystack needle : String) : Bool :=
  occursIn needle.toList haystack.toList

/-- JS `s.startsWith(pre)`. -/
def jsStartsWith (s pre : String) : Bool :=
  leadsWith pre.toList s.toList

/-- JS `s.toLowerCase()` (ASCII case folding, which covers every keyword the
    executor compares against). -/
def lowerStr (s : String) : String :=
  ⟨s.toList.map Char.toLower⟩

/-- JS truthiness of an optional string: `undefined` and `""` are falsy. -/
def jsTruthy : Option String → Option String
  | none => none
  | some s => if s = "" then none else some s

/-- JS `a || b` for two optional strings. -/
def jsOrOpt (a b : Option String) : Option String :=
  match jsTruthy a with
  | some s => some s
  | none => jsTruthy b

/-- JS `a || d` where `d` is a non-empty string literal default. -/
def jsOrStr (a : Option String) (d : String) : String :=
  match jsTruthy a with
  | some s => s
  | none => d

/-- Longest leading run of decimal digits. -/
def leadDigits : List Char → List Char
  | [] => []
  | c :: cs => if c.isDigit then c :: leadDigits cs else []

/-- Decimal value of a digit run. -/
def digitsVal (ds : List Char) : Nat :=
  ds.foldl (fun acc c => acc * 10 + (c.toNat - 48)) 0

/-- JS `parseInt(s, 10)`: skip leading whitespace, optional sign, then the
    longest digit run; `none` models `NaN` (no digits found). -/
def jsParseInt (s : String) : Option Int :=
  let cs := s.toList.dropWhile Char.isWhitespace
  match cs with
  | '-' :: rest =>
    let ds := leadDigits rest
    if ds = [] then none else some (-(digitsVal ds : Int))
  | '+' :: rest =>
    let ds := leadDigits rest
    if ds = [] then none else some ((digitsVal ds : Int))
  | _ =>
    let ds := leadDigits cs
    if ds = [] then none else some ((digitsVal ds : Int))

/-- JS `s.split(sep)` for a one-character separator, on character lists. -/
def splitCh (sep : Char) : List Char → List (List Char)
  | [] => [[]]
  | c :: rest =>
    if c = sep then [] :: splitCh sep rest
    else
      match splitCh sep rest with
      | [] => [[c]]
      | h :: t => (c :: h) :: t

/-! ## Element resolver (`findElement` in `src/unnamed/part_001`) -/

/-- Playwright locator shapes produced by `findElement`. -/
inductive Locator where
  | css (sel : String)
  | byLabel (text : String)
  | byPlaceholder (text : String)
  | byRole (role : String) (name : String)
  | byText (text : String)
  | firstOf (l : Locator)
deriving DecidableEq

/-- Page operations the step executor can perform. -/
inductive BrowserAction where
  | goto (url : String)
  | click (l : Locator)
  | fill (l : Locator) (value : String)
  | selectOption (l : Locator) (value : String)
  | check (l : Locator)
  | uncheck (l : Locator)
  | scrollIntoView (l : Locator)
  | scrollWindow
  | hover (l : Locator)
  | press (key : String)
  | focus (l : Locator)
deriving DecidableEq

/-- Observable effects of the story runner, recorded in execution order. -/
inductive Event where
  | act (a : BrowserAction)
  | pause (ms : Option Int)
  | tryStrategy (l : Locator)
  | stepCall (stepIndex attempt : Nat)
  | authAttempt
  | screenshotCapture
  | verifyCheck (idx : Nat)
deriving DecidableEq

/-- The generic semantic strategies, in source order. -/
def baseStrategies (target : String) : List Locator :=
  [Locator.byLabel target, Locator.byPlaceholder target,
   Locator.byRole "textbox" target, Locator.byRole "button" target,
   Locator.byRole "link" target, Locator.byText target]

/-- The `strategies` array after the keyword-seeded `unshift` calls. -/
def strategiesFor (target : String) : List Locator :=
  let targetLower := lowerStr target
  let s := baseStrategies target
  let s := if jsIncludes targetLower "email" then
      [Locator.css "input[type=\"email\"]", Locator.css "input[name=\"email\"]",
       Locator.css "input[name=\"Email\"]", Locator.css "#email"] ++ s else s
  let s := if jsIncludes targetLower "password" then
      [Locator.css "input[type=\"password\"]", Locator.css "input[name=\"password\"]",
       Locator.css "#password"] ++ s else s
  let s := if jsIncludes targetLower "username" then
      [Locator.css "input[name=\"username\"]", Locator.css "#username"] ++ s else s
  let s := if jsIncludes targetLower "submit" || jsIncludes targetLower "login"
              || jsIncludes targetLower "sign in" then
      [Locator.css "button[type=\"submit\"]", Locator.css "input[type=\"submit\"]"] ++ s else s
  s

/-- Cascade walk: strategies are evaluated in order and the first whose
    `.first()` is visible wins; every evaluated strategy leaves a trace event. -/
def cascade (visible : Locator → Bool) (target : String) : List Locator → Locator × List Event
  | [] => (Locator.css target, [])
  | l :: rest =>
    if visible (Locator.firstOf l) then (Locator.firstOf l, [Event.tryStrategy l])
    else
      let r := cascade visible target rest
      (r.1, Event.tryStrategy l :: r.2)

/-- `findElement`: a target that looks like a CSS selector is used literally;
    otherwise the strategy cascade runs.  `visible` abstracts the page's
    `isVisible` checks. -/
def findElement (visible : Locator → Bool) (target : String) : Locator × List Event :=
  if jsStartsWith target "#" || jsStartsWith target "." || jsStartsWith target "["
      || jsIncludes target "=" then
    (Locator.css target, [])
  else
    cascade visible target (strategiesFor target)

/-! ## Step executor (`executeStep` in `src/unnamed/part_001`) -/

structure StoryStep where
  action : String
  selector : Option String := none
  element : Option String := none
  value : Option String := none
deriving DecidableEq

/-- `StepResult` (duration, a wall-clock measurement, is not modelled). -/
structure StepResult where
  step : Nat
  action : String
  passed : Bool
  error : Option String := none
deriving DecidableEq

/-- Page behaviour oracle for one `executeStep` call: which locators are
    visible, and which page operations throw (with what message). -/
structure StepOracle where
  visible : Locator → Bool
  actionError : BrowserAction → Option String

/-- Resolve a target through `findElement` and build the page action from the
    resolved locator. -/
def resolveAnd (o : StepOracle) (target : String) (mk : Locator → BrowserAction) :
    List Event × Option BrowserAction :=
  let r := findElement o.visible target
  (r.2, some (mk r.1))

/-- The keyword dispatch of `executeStep`, in source order: events emitted
    before the page action, plus the (at most one) page action performed. -/
def dispatchStep (o : StepOracle) (step : StoryStep) : List Event × Option BrowserAction :=
  let action := lowerStr step.action
  if jsIncludes action "navigate" || jsIncludes action "go to" then
    match jsOrOpt step.value step.element with
    | some url => ([], some (BrowserAction.goto url))
    | none => ([], none)
  else if jsIncludes action "click" || jsIncludes action "tap" then
    match jsOrOpt step.selector step.element with
    | some t => resolveAnd o t BrowserAction.click
    | none => ([], none)
  else if jsIncludes action "type" || jsIncludes action "enter" || jsIncludes action "fill" then
    match jsOrOpt step.selector step.element with
    | some t => resolveAnd o t (fun l => BrowserAction.fill l (step.value.getD ""))
    | none => ([], none)
  else if jsIncludes action "select" || jsIncludes action "choose" then
    match jsOrOpt step.selector step.element with
    | some t => resolveAnd o t (fun l => BrowserAction.selectOption l (step.value.getD ""))
    | none => ([], none)
  else if jsIncludes action "check" then
    match jsOrOpt step.selector step.element with
    | some t => resolveAnd o t BrowserAction.check
    | none => ([], none)
  else if jsIncludes action "uncheck" then
    match jsOrOpt step.selector step.element with
    | some t => resolveAnd o t BrowserAction.uncheck
    | none => ([], none)
  else if jsIncludes action "wait" then
    ([Event.pause (jsParseInt (jsOrStr step.value "1000"))], none)
  else if jsIncludes action "scroll" then
    match jsOrOpt step.selector step.element with
    | some t => resolveAnd o t BrowserAction.scrollIntoView
    | none => ([], some BrowserAction.scrollWindow)
  else if jsIncludes action "hover" then
    match jsOrOpt step.selector step.element with
    | some t => resolveAnd o t BrowserAction.hover
    | none => ([], none)
  else if jsIncludes action "press" then
    ([], some (BrowserAction.press (jsOrStr step.value "Enter")))
  else if jsIncludes action "focus" then
    match jsOrOpt step.selector step.element with
    | some t => resolveAnd o t BrowserAction.focus
    | none => ([], none)
  else
    match jsOrOpt step.selector step.element with
    | some t => resolveAnd o t BrowserAction.click
    | none => ([], none)

/-- `executeStep`: perform the dispatched action; an exception from the page
    operation is caught at the step boundary (failed result, no settle pause),
    otherwise a fixed 100 ms settle pause precedes the passed result. -/
def executeStep (o : StepOracle) (step : StoryStep) (stepIndex : Nat) :
    StepResult × List Event :=
  let d := dispatchStep o step
  match d.2 with
  | none =>
    ({ step := stepIndex, action := step.action, passed := true },
     d.1 ++ [Event.pause (some 100)])
  | some a =>
    match o.actionError a with
    | none =>
      ({ step := stepIndex, action := step.action, passed := true },
       d.1 ++ [Event.act a, Event.pause (some 100)])
    | some msg =>
      ({ step := stepIndex, action := step.action, passed := false, error := some msg },
       d.1 ++ [Event.act a])

/-! ## Story runner (`executeStory` in `src/unnamed/part_001`) -/

structure Verification where
  type : String
  target : Option String := none
  expected : String
deriving DecidableEq

structure Story where
  id : String
  steps : List StoryStep
  verifications : List Verification := []
  required_role : Option String := none

structure AuthConfig where
  type : String
deriving DecidableEq

structure UserCredentials where
  username : String
  password : String
deriving DecidableEq

structure ExecutionOptions where
  retryCount : Nat
  screenshotOnFailure : Bool
  credentials : Option UserCredentials := none
  authConfig : Option AuthConfig := none

/-- `ExecutionResult` (duration and the console-listener fields are wall-clock
    and page-event driven and are not modelled). -/
structure ExecutionResult where
  passed : Bool
  steps : List StepResult
  error : Option String := none
  screenshot_url : Option String := none
  retries : Nat
deriving DecidableEq

/-- Final page state the verification loop reads. -/
structure VerifyOracle where
  url : String
  elemVisible : String → Bool
  hasText : String → Bool

/-- Oracle for one `executeStory` run: outcome of the login flow, of the
    initial `page.goto`, of each `executeStep` call (`stepExec i k` is the
    `(passed, error)` of the `k`-th call for step `i` against the live page),
    the final page state, and the screenshot uploader's returned URL. -/
structure StoryOracle where
  authSuccess : Bool
  authErrMsg : String
  gotoBaseError : Option String
  stepExec : Nat → Nat → Bool × Option String
  page : VerifyOracle
  uploadUrl : Option String

/-- `authenticateUser` as the runner sees it: on failure the returned error is
    `"Authentication failed: " ++ message`. -/
def authResult (o : StoryOracle) : Bool × Option String :=
  if o.authSuccess then (true, none)
  else (false, some ("Authentication failed: " ++ o.authErrMsg))

/-- The `StepResult` that `executeStep` reports for step `i` of `s` given the
    page outcome `out`. -/
def mkStepResult (i : Nat) (s : StoryStep) (out : Bool × Option String) : StepResult :=
  { step := i, action := s.action, passed := out.1, error := out.2 }

structure RetryOut where
  result : StepResult
  fails : Nat
  lastError : Option String
  events : List Event

/-- The per-step retry loop (`while attempts <= retryCount`): `remaining` is
    the number of `executeStep` calls still allowed, `callIdx` the index of the
    next call, `le` the `lastError` accumulator.  A 1 s pause separates a
    failed call from its retry; only the final call's result is returned. -/
def retryStep (exec : Nat → StepResult) : Nat → Nat → Option String → RetryOut
  | 0, _, le =>
    { result := { step := 0, action := "", passed := false }, fails := 0,
      lastError := le, events := [] }
  | remaining + 1, callIdx, le =>
    let r := exec callIdx
    if r.passed then
      { result := r, fails := 0, lastError := le,
        events := [Event.stepCall r.step callIdx] }
    else if remaining = 0 then
      { result := r, fails := 1, lastError := r.error,
        events := [Event.stepCall r.step callIdx] }
    else
      let rest := retryStep exec remaining (callIdx + 1) r.error
      { result := rest.result, fails := rest.fails + 1, lastError := rest.lastError,
        events := Event.stepCall r.step callIdx :: Event.pause (some 1000) :: rest.events }

structure StepsOut where
  results : List StepResult
  passed : Bool
  error : Option String
  retries : Nat
  screenshot : Bool
  events : List Event

/-- The step loop of `executeStory`: steps run in order, each through the
    retry loop; the first step that still fails stops the loop (screenshot if
    configured) and later steps never run. -/
def runSteps (exec : Nat → Nat → Bool × Option String) (retryCount : Nat)
    (screenshotOnFailure : Bool) : List StoryStep → Nat → StepsOut
  | [], _ =>
    { results := [], passed := true, error := none, retries := 0,
      screenshot := false, events := [] }
  | s :: rest, i =>
    let r := retryStep (fun k => mkStepResult i s (exec i k)) (retryCount + 1) 0 none
    if r.result.passed then
      let restOut := runSteps exec retryCount screenshotOnFailure rest (i + 1)
      { results := r.result :: restOut.results, passed := restOut.passed,
        error := restOut.error, retries := r.fails + restOut.retries,
        screenshot := restOut.screenshot, events := r.events ++ restOut.events }
    else
      { results := [r.result], passed := false, error := r.lastError,
        retries := r.fails, screenshot := screenshotOnFailure,
        events := r.events ++ if screenshotOnFailure then [Event.screenshotCapture] else [] }

/-- The verification loop: each verification is checked in order against the
    final page state; the first failing one sets the error and stops the loop;
    unknown types pass silently. -/
def runVerifications (ps : VerifyOracle) : List Verification → Nat → Bool × Option String × List Event
  | [], _ => (true, none, [])
  | v :: rest, i =>
    let checked : Bool × Option String :=
      if v.type = "url" then
        if jsIncludes ps.url v.expected then (true, none)
        else (false, some ("Expected URL to contain \"" ++ v.expected ++ "\", got \""
                            ++ ps.url ++ "\""))
      else if v.type = "element" then
        if ps.elemVisible (jsOrStr v.target v.expected) then (true, none)
        else (false, some ("Element \"" ++ jsOrStr v.target v.expected ++ "\" not visible"))
      else if v.type = "content" then
        if ps.hasText v.expected then (true, none)
        else (false, some ("Expected content \"" ++ v.expected ++ "\" not found"))
      else (true, none)
    if checked.1 then
      let r := runVerifications ps rest (i + 1)
      (r.1, r.2.1, Event.verifyCheck i :: r.2.2)
    else (false, checked.2, [Event.verifyCheck i])

/-- The `catch` branch of `executeStory` for a failure before any step ran:
    the story is failed with `msg`; a screenshot is attempted exactly when
    `screenshotOnFailure` is set (upload errors are swallowed). -/
def storyCatch (opts : ExecutionOptions) (o : StoryOracle) (msg : String)
    (evs : List Event) : ExecutionResult × List Event :=
  if opts.screenshotOnFailure then
    ({ passed := false, steps := [], error := some msg,
       screenshot_url := o.uploadUrl, retries := 0 },
     evs ++ [Event.screenshotCapture])
  else
    ({ passed := false, steps := [], error := some msg, retries := 0 }, evs)

/-- Step loop followed by verification, with the screenshot-on-verification-
    failure capture (taken only when none was captured during the step loop). -/
def storyMain (story : Story) (opts : ExecutionOptions) (o : StoryOracle)
    (evs : List Event) : ExecutionResult × List Event :=
  let so := runSteps o.stepExec opts.retryCount opts.screenshotOnFailure story.steps 0
  let evs := evs ++ so.events
  let screenshotUrl : Option String := if so.screenshot then o.uploadUrl else none
  if so.passed then
    let vr := runVerifications o.page story.verifications 0
    let evs := evs ++ vr.2.2
    if vr.1 then
      ({ passed := true, steps := so.results, error := none,
         screenshot_url := screenshotUrl, retries := so.retries }, evs)
    else if opts.screenshotOnFailure && screenshotUrl.isNone then
      ({ passed := false, steps := so.results, error := vr.2.1,
         screenshot_url := o.uploadUrl, retries := so.retries },
       evs ++ [Event.screenshotCapture])
    else
      ({ passed := false, steps := so.results, error := vr.2.1,
         screenshot_url := screenshotUrl, retries := so.retries }, evs)
  else
    ({ passed := false, steps := so.results, error := so.error,
       screenshot_url := screenshotUrl, retries := so.retries }, evs)

/-- `executeStory`: the login flow runs only when credentials and a
    `form`-type auth config are both supplied; its failure is thrown and caught
    by the outermost handler before any step executes.  Otherwise the runner
    navigates to the base URL first. -/
def executeStory (story : Story) (baseUrl : String) (opts : ExecutionOptions)
    (o : StoryOracle) : ExecutionResult × List Event :=
  let authPath : Bool :=
    match opts.credentials, opts.authConfig with
    | some _, some ac => ac.type == "form"
    | _, _ => false
  if authPath then
    let ar := authResult o
    if ar.1 then storyMain story opts o [Event.authAttempt]
    else storyCatch opts o (ar.2.getD "Authentication failed") [Event.authAttempt]
  else
    match o.gotoBaseError with
    | none => storyMain story opts o [Event.act (BrowserAction.goto baseUrl)]
    | some msg => storyCatch opts o msg [Event.act (BrowserAction.goto baseUrl)]

/-! ## Run orchestrator (`executeTestRun` in `src/worker/test-executor.ts`) -/

structure Environment where
  base_url : String
  auth_config : Option AuthConfig := none

structure StoryRow where
  id : String
  name : String
  title : String
  required_role : Option String := none
deriving DecidableEq

/-- The run-level counters persisted to the `test_runs` record. -/
structure Counters where
  passed : Nat
  failed : Nat
  skipped : Nat
deriving DecidableEq

/-- The fields of a `test_results` insert the claims are about (duration,
    steps, screenshot and console fields omitted). -/
structure ResultRow where
  story_id : String
  passed : Bool
  error : Option String
  retries : Nat
deriving DecidableEq

/-- Database writes and executor invocations of the orchestrator loop, in
    execution order. -/
inductive RunEvent where
  | cancelCheck (i : Nat)
  | clearCurrent
  | setCurrent (i : Nat)
  | callStoryRunner (i : Nat)
  | insertResult (r : ResultRow)
  | storyLastRun (id : String) (result : String)
  | persistCounters (c : Counters)
  | completeRun (c : Counters)
deriving DecidableEq

/-- Outcome of one `executeStory` call as the orchestrator sees it: a returned
    result (only the fields the orchestrator reads) or a thrown exception. -/
inductive RunnerOutcome where
  | ok (passed : Bool) (error : Option String) (retries : Nat)
  | threw (msg : String)

/-- External-world oracle for a run: the `test_runs.status` read at the
    boundary before story `i`, and the outcome of running story `i`. -/
structure RunOracle where
  status : Nat → String
  runStory : Nat → RunnerOutcome

/-- The role/credential gating of the orchestrator: a story with a required
    role is skipped when the environment auth config is absent or not of type
    `form`, or when no credential exists for the role. -/
def skipReason (env : Environment) (creds : String → Option UserCredentials)
    (story : StoryRow) : Option String :=
  match story.required_role with
  | none => none
  | some r =>
    match env.auth_config with
    | none =>
      some ("Story requires role \"" ++ r
            ++ "\" but environment auth is not configured for form login")
    | some ac =>
      if ac.type ≠ "form" then
        some ("Story requires role \"" ++ r
              ++ "\" but environment auth is not configured for form login")
      else
        match creds r with
        | some _ => none
        | none => some ("Missing test user for required role: " ++ r)

/-- Processing of one non-cancelled story: gating, result insert, per-story
    last-run update, counter bump, and — in the skip and returned-result paths
    only — a counters persist.  The thrown path bumps `failed` and inserts the
    error row but persists no counters. -/
def processOneStory (env : Environment) (creds : String → Option UserCredentials)
    (outcome : RunnerOutcome) (story : StoryRow) (i : Nat) (c : Counters) :
    Counters × List RunEvent :=
  match skipReason env creds story with
  | some reason =>
    let c' := { c with skipped := c.skipped + 1 }
    (c', [RunEvent.setCurrent i,
          RunEvent.insertResult
            { story_id := story.id, passed := false, error := some reason, retries := 0 },
          RunEvent.storyLastRun story.id "skipped",
          RunEvent.persistCounters c'])
  | none =>
    match outcome with
    | RunnerOutcome.ok p e r =>
      let c' := if p then { c with passed := c.passed + 1 }
                else { c with failed := c.failed + 1 }
      (c', [RunEvent.setCurrent i, RunEvent.callStoryRunner i,
            RunEvent.insertResult
              { story_id := story.id, passed := p, error := e, retries := r },
            RunEvent.storyLastRun story.id (if p then "passed" else "failed"),
            RunEvent.persistCounters c'])
    | RunnerOutcome.threw msg =>
      ({ c with failed := c.failed + 1 },
       [RunEvent.setCurrent i, RunEvent.callStoryRunner i,
        RunEvent.insertResult
          { story_id := story.id, passed := false, error := some msg, retries := 0 },
        RunEvent.storyLastRun story.id "failed"])

/-- The orchestrator loop: before each story the external status is re-read;
    a `cancelled` status clears the current-story markers and stops the run.
    Returns final counters, trace, and whether the run was cancelled. -/
def runStoriesAux (env : Environment) (creds : String → Option UserCredentials)
    (oracle : RunOracle) : List StoryRow → Nat → Counters → Counters × List RunEvent × Bool
  | [], _, c => (c, [], false)
  | story :: rest, i, c =>
    if oracle.status i = "cancelled" then
      (c, [RunEvent.cancelCheck i, RunEvent.clearCurrent], true)
    else
      let p := processOneStory env creds (oracle.runStory i) story i c
      let restOut := runStoriesAux env creds oracle rest (i + 1) p.1
      (restOut.1, RunEvent.cancelCheck i :: p.2 ++ restOut.2.1, restOut.2.2)

/-- `executeTestRun` (story loop and completion): on normal completion the run
    record is marked completed with the final aggregates; a cancelled run
    returns without that final write. -/
def executeTestRun (env : Environment) (creds : String → Option UserCredentials)
    (oracle : RunOracle) (stories : List StoryRow) : Counters × List RunEvent :=
  let r := runStoriesAux env creds oracle stories 0 { passed := 0, failed := 0, skipped := 0 }
  if r.2.2 then (r.1, r.2.1) else (r.1, r.2.1 ++ [RunEvent.completeRun r.1])

/-- Counter values written to the run record by an event, if any. -/
def persistedOf : RunEvent → Option Counters
  | RunEvent.persistCounters c => some c
  | RunEvent.completeRun c => some c
  | _ => none

/-- The successive counter snapshots an external observer polling the run
    record can see. -/
def persistSeq (tr : List RunEvent) : List Counters :=
  tr.filterMap persistedOf

/-- The counters last persisted strictly before story `i` begins (`acc` is the
    value persisted before the trace starts). -/
def lastPersistBefore (i : Nat) : List RunEvent → Option Counters → Option Counters
  | [], acc => acc
  | e :: rest, acc =>
    match e with
    | RunEvent.setCurrent j =>
      if j = i then acc else lastPersistBefore i rest acc
    | RunEvent.persistCounters c => lastPersistBefore i rest (some c)
    | RunEvent.completeRun c => lastPersistBefore i rest (some c)
    | _ => lastPersistBefore i rest acc

/-- Componentwise order on counters. -/
def Counters.le (a b : Counters) : Prop :=
  a.passed ≤ b.passed ∧ a.failed ≤ b.failed ∧ a.skipped ≤ b.skipped

instance (a b : Counters) : Decidable (Counters.le a b) := by
  unfold Counters.le
  infer_instance

/-! ## Credential encryption (`src/src/lib/crypto.ts`) -/

def base64Alphabet : List Char :=
  "ABCDEFGHIJKLMNOPQRSTUVWXYZabcdefghijklmnopqrstuvwxyz0123456789+/".toList

/-- Character for a 6-bit group. -/
def b64Char (n : Nat) : Char := base64Alphabet.getD n 'A'

def b64ValAux : List Char → Char → Option Nat
  | [], _ => none
  | a :: as, c => if c = a then some 0 else (b64ValAux as c).map (· + 1)

/-- Index of a character in the base64 alphabet. -/
def b64Val (c : Char) : Option Nat := b64ValAux base64Alphabet c

/-- Standard base64 encoding of a byte list (`Buffer.toString("base64")`). -/
def base64Encode : List Nat → List Char
  | [] => []
  | [a] => [b64Char (a / 4), b64Char (a % 4 * 16), '=', '=']
  | [a, b] => [b64Char (a / 4), b64Char (a % 4 * 16 + b / 16), b64Char (b % 16 * 4), '=']
  | a :: b :: c :: rest =>
    b64Char (a / 4) :: b64Char (a % 4 * 16 + b / 16) :: b64Char (b % 16 * 4 + c / 64)
      :: b64Char (c % 64) :: base64Encode rest

/-- Base64 decoding (`Buffer.from(s, "base64")`), exact on canonical
    encodings; `none` on other inputs (where Node would decode leniently —
    never reached on the round-trip path).  A `=` in third position marks a
    final one-byte group, a `=` in fourth position a final two-byte group. -/
def base64Decode : List Char → Option (List Nat)
  | [] => some []
  | c1 :: c2 :: c3 :: c4 :: rest =>
    if c3 = '=' then
      if c4 = '=' ∧ rest = [] then
        match b64Val c1, b64Val c2 with
        | some v1, some v2 => some [v1 * 4 + v2 / 16]
        | _, _ => none
      else none
    else if c4 = '=' then
      if rest = [] then
        match b64Val c1, b64Val c2, b64Val c3 with
        | some v1, some v2, some v3 => some [v1 * 4 + v2 / 16, v2 % 16 * 16 + v3 / 4]
        | _, _, _ => none
      else none
    else
      match b64Val c1, b64Val c2, b64Val c3, b64Val c4, base64Decode rest with
      | some v1, some v2, some v3, some v4, some bs =>
        some ((v1 * 4 + v2 / 16) :: (v2 % 16 * 16 + v3 / 4) :: (v3 % 4 * 64 + v4) :: bs)
      | _, _, _, _, _ => none
  | _ => none

/-- UTF-8 bytes of one unicode scalar value. -/
def utf8EncodeChar (c : Char) : List Nat :=
  let n := c.toNat
  if n < 0x80 then [n]
  else if n < 0x800 then [0xC0 + n / 64, 0x80 + n % 64]
  else if n < 0x10000 then [0xE0 + n / 4096, 0x80 + n / 64 % 64, 0x80 + n % 64]
  else [0xF0 + n / 262144, 0x80 + n / 4096 % 64, 0x80 + n / 64 % 64, 0x80 + n % 64]

/-- UTF-8 encoding of a string (`Buffer.from(s, "utf8")`). -/
def utf8Encode (cs : List Char) : List Nat :=
  cs.flatMap utf8EncodeChar

/-- Continuation-byte test for UTF-8 decoding. -/
def contByte (b : Nat) : Bool := 0x80 ≤ b && b < 0xC0

/-- Scalar value of a two-byte UTF-8 sequence (with overlong rejection). -/
def utf8Scalar2 (b b2 : Nat) : Option Nat :=
  if contByte b2 then
    if (b - 0xC0) * 64 + (b2 - 0x80) < 0x80 then none
    else some ((b - 0xC0) * 64 + (b2 - 0x80))
  else none

/-- Scalar value of a three-byte UTF-8 sequence (with overlong rejection). -/
def utf8Scalar3 (b b2 b3 : Nat) : Option Nat :=
  if contByte b2 && contByte b3 then
    if (b - 0xE0) * 4096 + (b2 - 0x80) * 64 + (b3 - 0x80) < 0x800 then none
    else some ((b - 0xE0) * 4096 + (b2 - 0x80) * 64 + (b3 - 0x80))
  else none

/-- Scalar value of a four-byte UTF-8 sequence (with range rejection). -/
def utf8Scalar4 (b b2 b3 b4 : Nat) : Option Nat :=
  if contByte b2 && contByte b3 && contByte b4 then
    if (b - 0xF0) * 262144 + (b2 - 0x80) * 4096 + (b3 - 0x80) * 64 + (b4 - 0x80) < 0x10000
        || 0x10FFFF < (b - 0xF0) * 262144 + (b2 - 0x80) * 4096 + (b3 - 0x80) * 64 + (b4 - 0x80)
    then none
    else some ((b - 0xF0) * 262144 + (b2 - 0x80) * 4096 + (b3 - 0x80) * 64 + (b4 - 0x80))
  else none

/-- Decode one scalar value from leading byte `b` and remaining bytes `bs`,
    returning the scalar and the bytes left over. -/
def utf8DecodeOne (b : Nat) (bs : List Nat) : Option (Nat × List Nat) :=
  if b < 0x80 then some (b, bs)
  else if b < 0xC0 then none
  else if b < 0xE0 then
    match bs with
    | b2 :: rest => (utf8Scalar2 b b2).map (fun n => (n, rest))
    | [] => none
  else if b < 0xF0 then
    match bs with
    | b2 :: b3 :: rest => (utf8Scalar3 b b2 b3).map (fun n => (n, rest))
    | _ => none
  else if b < 0xF8 then
    match bs with
    | b2 :: b3 :: b4 :: rest => (utf8Scalar4 b b2 b3 b4).map (fun n => (n, rest))
    | _ => none
  else none

/-- Scalar-by-scalar decoding loop; each step consumes at least one byte, so
    fuel equal to the byte count always suffices. -/
def utf8DecodeAux : Nat → List Nat → Option (List Char)
  | _, [] => some []
  | 0, _ :: _ => none
  | fuel + 1, b :: bs =>
    match utf8DecodeOne b bs with
    | some (n, rest) => (utf8DecodeAux fuel rest).map (fun cs => Char.ofNat n :: cs)
    | none => none

/-- UTF-8 decoding (`Buffer.toString("utf8")`), exact on valid encodings;
    `none` models the lenient replacement path, never reached on round-trip. -/
def utf8Decode (l : List Nat) : Option (List Char) :=
  utf8DecodeAux l.length l

/-- `salt:iv:tag:encrypted` field joining (`Array.prototype.join(":")`). -/
def joinColon : List (List Char) → List Char
  | [] => []
  | [p] => p
  | p :: rest => p ++ ':' :: joinColon rest

/-- `encrypt` from `src/src/lib/crypto.ts`: the scrypt derivation and the
    AES-256-GCM cipher are Node-library primitives, taken as parameters
    (`kdf salt` is the derived key for the secret+salt; `enc key iv plain`
    returns `(ciphertext, authTag)`); `salt` and `iv` stand for the two
    `randomBytes` draws. -/
def encrypt (kdf : List Nat → List Nat)
    (enc : List Nat → List Nat → List Nat → List Nat × List Nat)
    (salt iv : List Nat) (plaintext : List Char) : List Char :=
  let key := kdf salt
  let e := enc key iv (utf8Encode plaintext)
  joinColon [base64Encode salt, base64Encode iv, base64Encode e.2, base64Encode e.1]

/-- `decrypt`: split on `:`, reject unless exactly four fields, base64-decode
    each, re-derive the key from the recovered salt and apply the GCM decipher
    `dec key iv tag ct`; `none` from `dec` models the auth-tag error thrown by
    `decipher.final()`. -/
def decrypt (kdf : List Nat → List Nat)
    (dec : List Nat → List Nat → List Nat → List Nat → Option (List Nat))
    (ciphertext : List Char) : Except String (List Char) :=
  let parts := splitCh ':' ciphertext
  if parts.length ≠ 4 then Except.error "Invalid ciphertext format"
  else
    match parts with
    | [sB, iB, tB, eB] =>
      let salt := (base64Decode sB).getD []
      let iv := (base64Decode iB).getD []
      let tag := (base64Decode tB).getD []
      let ct := (base64Decode eB).getD []
      let key := kdf salt
      match dec key iv tag ct with
      | some pb => Except.ok ((utf8Decode pb).getD [])
      | none => Except.error "Unsupported state or unable to authenticate data"
    | _ => Except.error "Invalid ciphertext format"

/-- Recognizer for `executeStep`-invocation events. -/
def isStepCall : Event → Bool
  | Event.stepCall _ _ => true
  | _ => false

/-- Number of `executeStep` invocations recorded in a trace. -/
def countStepCalls (evs : List Event) : Nat :=
  List.countP isStepCall evs

/-! ## Helper lemmas on the string primitives -/

theorem leadsWith_self_append (l t : List Char) : leadsWith l (l ++ t) = true := by
  induction l with
  | nil => rfl
  | cons a as ih => simp [leadsWith, ih]

theorem occursIn_of_leadsWith (n h : List Char) (hl : leadsWith n h = true) :
    occursIn n h = true := by
  cases h with
  | nil => exact hl
  | cons b bs => simp [occursIn, hl]

theorem occursIn_self_append (n t : List Char) : occursIn n (n ++ t) = true :=
  occursIn_of_leadsWith _ _ (leadsWith_self_append n t)

theorem occursIn_append_left (n : List Char) (s t : List Char)
    (h : occursIn n t = true) : occursIn n (s ++ t) = true := by
  induction s with
  | nil => simpa using h
  | cons a as ih => simp [occursIn, ih]

theorem toList_append (s t : String) : (s ++ t).toList = s.toList ++ t.toList := by
  show (s ++ t).data = s.data ++ t.data
  exact String.data_append s t

/-! ## Claims C8, C10, C7, C2 -/

/-- Claim C8: for every target string that starts with `#`, `.`, or `[`, or
    contains `=`, `findElement` uses the string literally as a CSS selector and
    evaluates no strategy of the semantic cascade. -/
theorem C8_css_like_target_is_literal (visible : Locator → Bool) (target : String)
    (h : (jsStartsWith target "#" || jsStartsWith target "." || jsStartsWith target "["
          || jsIncludes target "=") = true) :
    findElement visible target = (Locator.css target, []) := by
  unfold findElement
  simp [h]

/-- Witness for C8: the target `"#email"` satisfies the syntactic test and is
    used as a literal selector with an empty cascade trace. -/
theorem C8_witness :
    (jsStartsWith "#email" "#" || jsStartsWith "#email" "." || jsStartsWith "#email" "["
      || jsIncludes "#email" "=") = true
    ∧ findElement (fun _ => false) "#email" = (Locator.css "#email", []) :=
  ⟨by decide, C8_css_like_target_is_literal (fun _ => false) "#email" (by decide)⟩

/-- Claim C10: a step whose lowercased action label contains none of the
    recognized keywords and which has neither a selector nor an element makes
    `executeStep` perform no browser action at all (only the fixed settle
    pause) and still return a passed `StepResult`. -/
theorem C10_unrecognized_action_is_noop (o : StepOracle) (step : StoryStep) (i : Nat)
    (hnav : jsIncludes (lowerStr step.action) "navigate" = false)
    (hgo : jsIncludes (lowerStr step.action) "go to" = false)
    (hclick : jsIncludes (lowerStr step.action) "click" = false)
    (htap : jsIncludes (lowerStr step.action) "tap" = false)
    (htype : jsIncludes (lowerStr step.action) "type" = false)
    (henter : jsIncludes (lowerStr step.action) "enter" = false)
    (hfill : jsIncludes (lowerStr step.action) "fill" = false)
    (hselect : jsIncludes (lowerStr step.action) "select" = false)
    (hchoose : jsIncludes (lowerStr step.action) "choose" = false)
    (hcheck : jsIncludes (lowerStr step.action) "check" = false)
    (huncheck : jsIncludes (lowerStr step.action) "uncheck" = false)
    (hwait : jsIncludes (lowerStr step.action) "wait" = false)
    (hscroll : jsIncludes (lowerStr step.action) "scroll" = false)
    (hhover : jsIncludes (lowerStr step.action) "hover" = false)
    (hpress : jsIncludes (lowerStr step.action) "press" = false)
    (hfocus : jsIncludes (lowerStr step.action) "focus" = false)
    (hsel : step.selector = none) (helem : step.element = none) :
    executeStep o step i =
      ({ step := i, action := step.action, passed := true, error := none },
       [Event.pause (some 100)]) := by
  unfold executeStep dispatchStep
  simp [hnav, hgo, hclick, htap, htype, henter, hfill, hselect, hchoose, hcheck,
        huncheck, hwait, hscroll, hhover, hpress, hfocus, hsel, helem, jsOrOpt, jsTruthy]

/-- Witness for C10: the action `"dance"` matches no keyword group and, with no
    target fields, silently succeeds as a no-op. -/
theorem C10_witness :
    jsIncludes (lowerStr "dance") "click" = false
    ∧ executeStep ⟨fun _ => false, fun _ => none⟩ { action := "dance" } 0 =
        ({ step := 0, action := "dance", passed := true, error := none },
         [Event.pause (some 100)]) :=
  ⟨by decide,
   C10_unrecognized_action_is_noop ⟨fun _ => false, fun _ => none⟩ { action := "dance" } 0
     (by decide) (by decide) (by decide) (by decide) (by decide) (by decide) (by decide)
     (by decide) (by decide) (by decide) (by decide) (by decide) (by decide) (by decide)
     (by decide) (by decide) rfl rfl⟩

/-- Counterexample to C7 as stated: for the wait step with the unparseable
    value `"abc"`, `executeStep` pauses for `parseInt("abc", 10) = NaN`
    (modelled as `none`), not for the claimed default of 1000 ms. -/
theorem C7_counterexample :
    (executeStep ⟨fun _ => false, fun _ => none⟩ { action := "wait", value := some "abc" } 0).2
      = [Event.pause none, Event.pause (some 100)]
    ∧ Event.pause (some 1000) ∉
        (executeStep ⟨fun _ => false, fun _ => none⟩ { action := "wait", value := some "abc" } 0).2 := by
  decide

/-- Claim C7 (amended): a wait step pauses for `parseInt(value || "1000", 10)`
    milliseconds — the 1000 ms default applies exactly when the value is
    missing or empty; a non-empty unparseable value yields `NaN`, which is
    what is passed to the pause (no 1000 ms fallback). -/
theorem C7_wait_parses_value (o : StepOracle) (step : StoryStep) (i : Nat)
    (hnav : jsIncludes (lowerStr step.action) "navigate" = false)
    (hgo : jsIncludes (lowerStr step.action) "go to" = false)
    (hclick : jsIncludes (lowerStr step.action) "click" = false)
    (htap : jsIncludes (lowerStr step.action) "tap" = false)
    (htype : jsIncludes (lowerStr step.action) "type" = false)
    (henter : jsIncludes (lowerStr step.action) "enter" = false)
    (hfill : jsIncludes (lowerStr step.action) "fill" = false)
    (hselect : jsIncludes (lowerStr step.action) "select" = false)
    (hchoose : jsIncludes (lowerStr step.action) "choose" = false)
    (hcheck : jsIncludes (lowerStr step.action) "check" = false)
    (huncheck : jsIncludes (lowerStr step.action) "uncheck" = false)
    (hwait : jsIncludes (lowerStr step.action) "wait" = true) :
    executeStep o step i =
      ({ step := i, action := step.action, passed := true, error := none },
       [Event.pause (jsParseInt (jsOrStr step.value "1000")), Event.pause (some 100)])
    ∧ ((step.value = none ∨ step.value = some "") →
        jsParseInt (jsOrStr step.value "1000") = some 1000) := by
  constructor
  · unfold executeStep dispatchStep
    simp [hnav, hgo, hclick, htap, htype, henter, hfill, hselect, hchoose, hcheck,
          huncheck, hwait]
  · rintro (h | h) <;> rw [h] <;> decide

/-- Witness for C7 (amended): a plain `"wait"` step with no value pauses for
    the default 1000 ms. -/
theorem C7_witness :
    executeStep ⟨fun _ => false, fun _ => none⟩ { action := "wait" } 0 =
      ({ step := 0, action := "wait", passed := true, error := none },
       [Event.pause (jsParseInt (jsOrStr none "1000")), Event.pause (some 100)])
    ∧ jsParseInt (jsOrStr (none : Option String) "1000") = some 1000 := by
  have h := C7_wait_parses_value ⟨fun _ => false, fun _ => none⟩ { action := "wait" } 0
    (by decide) (by decide) (by decide) (by decide) (by decide) (by decide) (by decide)
    (by decide) (by decide) (by decide) (by decide) (by decide)
  exact ⟨h.1, h.2 (Or.inl rfl)⟩

/-- Counterexample to C2 as stated: with `screenshotOnFailure = true`, an
    authentication failure does route the story to the failed result with the
    auth error and zero steps, but a screenshot capture IS attempted in the
    catch handler — contradicting the claim that no artifact capture happens. -/
theorem C2_counterexample :
    (executeStory { id := "s", steps := [{ action := "click", selector := some "#b" }] }
        "http://base"
        { retryCount := 2, screenshotOnFailure := true,
          credentials := some ⟨"u", "p"⟩, authConfig := some ⟨"form"⟩ }
        { authSuccess := false, authErrMsg := "no login form", gotoBaseError := none,
          stepExec := fun _ _ => (true, none),
          page := ⟨"u", fun _ => true, fun _ => true⟩, uploadUrl := some "URL" }).1
      = { passed := false, steps := [], error := some "Authentication failed: no login form",
          screenshot_url := some "URL", retries := 0 }
    ∧ Event.screenshotCapture ∈
        (executeStory { id := "s", steps := [{ action := "click", selector := some "#b" }] }
          "http://base"
          { retryCount := 2, screenshotOnFailure := true,
            credentials := some ⟨"u", "p"⟩, authConfig := some ⟨"form"⟩ }
          { authSuccess := false, authErrMsg := "no login form", gotoBaseError := none,
            stepExec := fun _ _ => (true, none),
            page := ⟨"u", fun _ => true, fun _ => true⟩, uploadUrl := some "URL" }).2 := by
  decide

/-- Claim C2 (amended): when credentials and a `form`-type auth config are
    supplied and the login flow fails, the story's result is failed with the
    authentication error, no step is ever executed and the step list is empty;
    a screenshot capture is attempted exactly when `screenshotOnFailure` is
    set (and skipped otherwise). -/
theorem C2_auth_failure_fails_story (story : Story) (baseUrl : String)
    (opts : ExecutionOptions) (o : StoryOracle) (cred : UserCredentials) (ac : AuthConfig)
    (hc : opts.credentials = some cred) (ha : opts.authConfig = some ac)
    (hf : ac.type = "form") (hfail : o.authSuccess = false) :
    (executeStory story baseUrl opts o).1.passed = false
    ∧ (executeStory story baseUrl opts o).1.error
        = some ("Authentication failed: " ++ o.authErrMsg)
    ∧ (executeStory story baseUrl opts o).1.steps = []
    ∧ (∀ i k, Event.stepCall i k ∉ (executeStory story baseUrl opts o).2)
    ∧ (Event.screenshotCapture ∈ (executeStory story baseUrl opts o).2
        ↔ opts.screenshotOnFailure = true) := by
  unfold executeStory authResult storyCatch
  rw [hc, ha]
  by_cases hs : opts.screenshotOnFailure <;> simp [hf, hfail, hs]

/-- Witness for C2 (amended): with `screenshotOnFailure = false` the auth
    failure produces the failed, step-free result and no screenshot attempt. -/
theorem C2_witness :
    (executeStory { id := "s", steps := [{ action := "click", selector := some "#b" }] }
        "http://base"
        { retryCount := 2, screenshotOnFailure := false,
          credentials := some ⟨"u", "p"⟩, authConfig := some ⟨"form"⟩ }
        { authSuccess := false, authErrMsg := "boom", gotoBaseError := none,
          stepExec := fun _ _ => (true, none),
          page := ⟨"u", fun _ => true, fun _ => true⟩, uploadUrl := some "URL" }).1.passed = false
    ∧ (Event.screenshotCapture ∈
        (executeStory { id := "s", steps := [{ action := "click", selector := some "#b" }] }
          "http://base"
          { retryCount := 2, screenshotOnFailure := false,
            credentials := some ⟨"u", "p"⟩, authConfig := some ⟨"form"⟩ }
          { authSuccess := false, authErrMsg := "boom", gotoBaseError := none,
            stepExec := fun _ _ => (true, none),
            page := ⟨"u", fun _ => true, fun _ => true⟩, uploadUrl := some "URL" }).2
        ↔ False) := by
  have h := C2_auth_failure_fails_story
    { id := "s", steps := [{ action := "click", selector := some "#b" }] } "http://base"
    { retryCount := 2, screenshotOnFailure := false,
      credentials := some ⟨"u", "p"⟩, authConfig := some ⟨"form"⟩ }
    { authSuccess := false, authErrMsg := "boom", gotoBaseError := none,
      stepExec := fun _ _ => (true, none),
      page := ⟨"u", fun _ => true, fun _ => true⟩, uploadUrl := some "URL" }
    ⟨"u", "p"⟩ ⟨"form"⟩ rfl rfl rfl rfl
  refine ⟨h.1, ?_⟩
  rw [h.2.2.2.2]
  simp

/-- A string whose character list splits as `a ++ (mid ++ b)` contains `mid`. -/
theorem jsIncludes_split (s mid : String) (a b : List Char)
    (hs : s.toList = a ++ (mid.toList ++ b)) : jsIncludes s mid = true := by
  unfold jsIncludes
  rw [hs]
  exact occursIn_append_left _ _ _ (occursIn_self_append _ _)

/-! ## Claim C6 -/

/-- Claim C6: a `url` verification passes exactly when the current page URL
    contains the expected string as a substring; on failure the recorded
    message contains both the expected substring and the actual URL, and
    evaluation stops at this first failure (the remaining verifications
    contribute nothing). -/
theorem C6_url_verification_substring (ps : VerifyOracle) (expected : String)
    (tgt : Option String) (rest : List Verification) (i : Nat) :
    (jsIncludes ps.url expected = true →
      runVerifications ps ({ type := "url", target := tgt, expected := expected } :: rest) i
        = ((runVerifications ps rest (i + 1)).1, (runVerifications ps rest (i + 1)).2.1,
           Event.verifyCheck i :: (runVerifications ps rest (i + 1)).2.2))
    ∧ (jsIncludes ps.url expected = false →
        runVerifications ps ({ type := "url", target := tgt, expected := expected } :: rest) i
          = (false,
             some ("Expected URL to contain \"" ++ expected ++ "\", got \"" ++ ps.url ++ "\""),
             [Event.verifyCheck i])
        ∧ jsIncludes
            ("Expected URL to contain \"" ++ expected ++ "\", got \"" ++ ps.url ++ "\"")
            expected = true
        ∧ jsIncludes
            ("Expected URL to contain \"" ++ expected ++ "\", got \"" ++ ps.url ++ "\"")
            ps.url = true) := by
  constructor
  · intro h
    simp [runVerifications, h]
  · intro h
    refine ⟨by simp [runVerifications, h], ?_, ?_⟩
    · exact jsIncludes_split _ _ "Expected URL to contain \"".toList
        (("\", got \"" ++ ps.url ++ "\"").toList)
        (by simp [toList_append, List.append_assoc])
    · exact jsIncludes_split _ _
        (("Expected URL to contain \"" ++ expected ++ "\", got \"").toList)
        ("\"".toList)
        (by simp [toList_append, List.append_assoc])

/-- Witness for C6: the spec's example — expected `"/dashboard"` passes against
    `https://x.test/dashboard?x=1`; against `https://x.test/login` it fails with
    a message containing both strings, and the following verification is never
    evaluated. -/
theorem C6_witness :
    (runVerifications ⟨"https://x.test/dashboard?x=1", fun _ => false, fun _ => false⟩
        [{ type := "url", target := none, expected := "/dashboard" }] 0).1 = true
    ∧ runVerifications ⟨"https://x.test/login", fun _ => false, fun _ => false⟩
        [{ type := "url", target := none, expected := "/dashboard" },
         { type := "content", target := none, expected := "x" }] 0
      = (false,
         some ("Expected URL to contain \"" ++ "/dashboard" ++ "\", got \""
               ++ "https://x.test/login" ++ "\""),
         [Event.verifyCheck 0])
    ∧ jsIncludes ("Expected URL to contain \"" ++ "/dashboard" ++ "\", got \""
                  ++ "https://x.test/login" ++ "\"") "/dashboard" = true
    ∧ jsIncludes ("Expected URL to contain \"" ++ "/dashboard" ++ "\", got \""
                  ++ "https://x.test/login" ++ "\"") "https://x.test/login" = true := by
  have h1 := (C6_url_verification_substring
    ⟨"https://x.test/dashboard?x=1", fun _ => false, fun _ => false⟩ "/dashboard" none [] 0).1
    (by decide)
  have h2 := (C6_url_verification_substring
    ⟨"https://x.test/login", fun _ => false, fun _ => false⟩ "/dashboard" none
    [{ type := "content", target := none, expected := "x" }] 0).2 (by decide)
  exact ⟨by rw [h1]; rfl, h2.1, h2.2.1, h2.2.2⟩

/-! ## Claim C3 -/

/-- Claim C3: a story declaring a required role, run when the environment auth
    config is absent or not of type `form`, or when no credential exists for
    that role, is recorded as skipped — the skipped counter (and only it) is
    bumped, the persisted reason mentions the role, and the Story Runner is
    never invoked. -/
theorem C3_role_gating_skips (env : Environment) (creds : String → Option UserCredentials)
    (outcome : RunnerOutcome) (story : StoryRow) (i : Nat) (c : Counters) (r : String)
    (hrole : story.required_role = some r)
    (hmiss : env.auth_config = none
      ∨ (∃ ac, env.auth_config = some ac ∧ ac.type ≠ "form")
      ∨ creds r = none) :
    ∃ reason : String,
      skipReason env creds story = some reason
      ∧ jsIncludes reason r = true
      ∧ processOneStory env creds outcome story i c =
          ({ c with skipped := c.skipped + 1 },
           [RunEvent.setCurrent i,
            RunEvent.insertResult
              { story_id := story.id, passed := false, error := some reason, retries := 0 },
            RunEvent.storyLastRun story.id "skipped",
            RunEvent.persistCounters { c with skipped := c.skipped + 1 }])
      ∧ (∀ j, RunEvent.callStoryRunner j ∉ (processOneStory env creds outcome story i c).2) := by
  have hmention1 : jsIncludes
      ("Story requires role \"" ++ r ++ "\" but environment auth is not configured for form login")
      r = true :=
    jsIncludes_split _ _ "Story requires role \"".toList
      ("\" but environment auth is not configured for form login").toList
      (by simp [toList_append, List.append_assoc])
  have hmention2 : jsIncludes ("Missing test user for required role: " ++ r) r = true :=
    jsIncludes_split _ _ "Missing test user for required role: ".toList []
      (by simp [toList_append])
  have hskip : ∃ reason, skipReason env creds story = some reason
      ∧ jsIncludes reason r = true := by
    rcases hmiss with h | ⟨ac, hac, hne⟩ | h
    · exact ⟨_, by simp [skipReason, hrole, h], hmention1⟩
    · exact ⟨_, by simp [skipReason, hrole, hac, hne], hmention1⟩
    · rcases henv : env.auth_config with _ | ac
      · exact ⟨_, by simp [skipReason, hrole, henv], hmention1⟩
      · by_cases hform : ac.type = "form"
        · exact ⟨_, by simp [skipReason, hrole, henv, hform, h], hmention2⟩
        · exact ⟨_, by simp [skipReason, hrole, henv, hform], hmention1⟩
  obtain ⟨reason, hr, hinc⟩ := hskip
  have heq : processOneStory env creds outcome story i c =
      ({ c with skipped := c.skipped + 1 },
       [RunEvent.setCurrent i,
        RunEvent.insertResult
          { story_id := story.id, passed := false, error := some reason, retries := 0 },
        RunEvent.storyLastRun story.id "skipped",
        RunEvent.persistCounters { c with skipped := c.skipped + 1 }]) := by
    unfold processOneStory
    rw [hr]
  refine ⟨reason, hr, hinc, heq, ?_⟩
  intro j
  rw [heq]
  simp

/-- Witness for C3: the spec's example — a story requiring role `"admin"`
    against an environment with `auth_config.type = "none"` is skipped with a
    reason mentioning the role, and the Story Runner is not called. -/
theorem C3_witness :
    processOneStory { base_url := "http://b", auth_config := some ⟨"none"⟩ } (fun _ => none)
        (RunnerOutcome.ok true none 0) ⟨"s1", "n", "t", some "admin"⟩ 0 ⟨0, 0, 0⟩
      = (⟨0, 0, 1⟩,
         [RunEvent.setCurrent 0,
          RunEvent.insertResult
            ⟨"s1", false,
             some "Story requires role \"admin\" but environment auth is not configured for form login",
             0⟩,
          RunEvent.storyLastRun "s1" "skipped",
          RunEvent.persistCounters ⟨0, 0, 1⟩])
    ∧ jsIncludes
        "Story requires role \"admin\" but environment auth is not configured for form login"
        "admin" = true := by
  obtain ⟨reason, h1, h2, h3, _⟩ := C3_role_gating_skips
    { base_url := "http://b", auth_config := some ⟨"none"⟩ } (fun _ => none)
    (RunnerOutcome.ok true none 0) ⟨"s1", "n", "t", some "admin"⟩ 0 ⟨0, 0, 0⟩ "admin" rfl
    (Or.inr (Or.inl ⟨⟨"none"⟩, rfl, by decide⟩))
  have hlit : skipReason { base_url := "http://b", auth_config := some ⟨"none"⟩ }
      (fun _ => none) ⟨"s1", "n", "t", some "admin"⟩
      = some "Story requires role \"admin\" but environment auth is not configured for form login" := by
    decide
  rw [hlit] at h1
  have hreq : reason
      = "Story requires role \"admin\" but environment auth is not configured for form login" :=
    (Option.some_inj.mp h1).symm
  subst hreq
  exact ⟨h3, h2⟩

/-! ## Claim C1 -/

/-- A passing call ends the retry loop at once. -/
theorem retryStep_pass (exec : Nat → StepResult) (n k : Nat) (le : Option String)
    (h : (exec k).passed = true) :
    retryStep exec (n + 1) k le =
      { result := exec k, fails := 0, lastError := le,
        events := [Event.stepCall (exec k).step k] } := by
  show retryStep exec (Nat.succ n) k le = _
  rw [retryStep.eq_2]
  simp [h]

/-- A failing call with no allowance left ends the loop without a retry wait. -/
theorem retryStep_fail_last (exec : Nat → StepResult) (k : Nat) (le : Option String)
    (h : (exec k).passed = false) :
    retryStep exec 1 k le =
      { result := exec k, fails := 1, lastError := (exec k).error,
        events := [Event.stepCall (exec k).step k] } := by
  show retryStep exec (Nat.succ 0) k le = _
  rw [retryStep.eq_2]
  simp [h]

/-- A failing call with allowance left waits 1 s and re-enters the loop. -/
theorem retryStep_fail_cont (exec : Nat → StepResult) (n k : Nat) (le : Option String)
    (h : (exec k).passed = false) :
    retryStep exec (n + 2) k le =
      { result := (retryStep exec (n + 1) (k + 1) (exec k).error).result,
        fails := (retryStep exec (n + 1) (k + 1) (exec k).error).fails + 1,
        lastError := (retryStep exec (n + 1) (k + 1) (exec k).error).lastError,
        events := Event.stepCall (exec k).step k :: Event.pause (some 1000)
          :: (retryStep exec (n + 1) (k + 1) (exec k).error).events } := by
  show retryStep exec (Nat.succ (n + 1)) k le = _
  rw [retryStep.eq_2]
  simp [h]

/-- The retry loop makes between 1 and `n + 1` `executeStep` calls and keeps
    exactly the result of its last call. -/
theorem retryStep_spec (exec : Nat → StepResult) :
    ∀ (n k : Nat) (le : Option String),
      1 ≤ countStepCalls (retryStep exec (n + 1) k le).events
      ∧ countStepCalls (retryStep exec (n + 1) k le).events ≤ n + 1
      ∧ (retryStep exec (n + 1) k le).result
          = exec (k + countStepCalls (retryStep exec (n + 1) k le).events - 1) := by
  intro n
  induction n with
  | zero =>
    intro k le
    by_cases h : (exec k).passed
    · rw [retryStep_pass exec 0 k le h]
      simp [countStepCalls, isStepCall]
    · rw [retryStep_fail_last exec k le (by simpa using h)]
      simp [countStepCalls, isStepCall]
  | succ m ih =>
    intro k le
    by_cases h : (exec k).passed
    · rw [retryStep_pass exec (m + 1) k le h]
      simp [countStepCalls, isStepCall]
    · have h' : (exec k).passed = false := by simpa using h
      rw [show m + 1 + 1 = m + 2 from rfl, retryStep_fail_cont exec m k le h']
      obtain ⟨ih1, ih2, ih3⟩ := ih (k + 1) (exec k).error
      simp [countStepCalls, List.countP_cons, isStepCall] at ih1 ih2 ih3 ⊢
      constructor
      · omega
      · exact ih3

/-- Claim C1: each step is attempted at most `retryCount + 1` times and only
    the final attempt's `StepResult` is kept; a story with `retryCount = 2`
    whose single step fails on calls 0 and 1 and passes on call 2 reports the
    step (and story) as passed with exactly 2 contributed retries and exactly
    3 `executeStep` calls — never a 4th. -/
theorem C1_step_retry_policy :
    (∀ (exec : Nat → StepResult) (retryCount k : Nat) (le : Option String),
      countStepCalls (retryStep exec (retryCount + 1) k le).events ≤ retryCount + 1
      ∧ (retryStep exec (retryCount + 1) k le).result
          = exec (k + countStepCalls (retryStep exec (retryCount + 1) k le).events - 1))
    ∧ ∀ (story : Story) (baseUrl : String) (opts : ExecutionOptions) (o : StoryOracle)
        (s : StoryStep) (e0 e1 : Option String),
        story.steps = [s] → story.verifications = [] →
        opts.retryCount = 2 → opts.credentials = none → o.gotoBaseError = none →
        o.stepExec 0 0 = (false, e0) → o.stepExec 0 1 = (false, e1) →
        o.stepExec 0 2 = (true, none) →
        (executeStory story baseUrl opts o).1.passed = true
        ∧ (executeStory story baseUrl opts o).1.retries = 2
        ∧ (executeStory story baseUrl opts o).1.steps
            = [{ step := 0, action := s.action, passed := true, error := none }]
        ∧ countStepCalls (executeStory story baseUrl opts o).2 = 3 := by
  constructor
  · intro exec retryCount k le
    exact ⟨(retryStep_spec exec retryCount k le).2.1, (retryStep_spec exec retryCount k le).2.2⟩
  · intro story baseUrl opts o s e0 e1 hsteps hver hrc hcred hgoto hs0 hs1 hs2
    have hm0 : mkStepResult 0 s (o.stepExec 0 0) = ⟨0, s.action, false, e0⟩ := by
      rw [hs0]; rfl
    have hm1 : mkStepResult 0 s (o.stepExec 0 1) = ⟨0, s.action, false, e1⟩ := by
      rw [hs1]; rfl
    have hm2 : mkStepResult 0 s (o.stepExec 0 2) = ⟨0, s.action, true, none⟩ := by
      rw [hs2]; rfl
    have hretry : retryStep (fun k => mkStepResult 0 s (o.stepExec 0 k)) 3 0 none =
        { result := ⟨0, s.action, true, none⟩, fails := 2, lastError := e1,
          events := [Event.stepCall 0 0, Event.pause (some 1000),
                     Event.stepCall 0 1, Event.pause (some 1000), Event.stepCall 0 2] } := by
      rw [show (3 : Nat) = 1 + 2 from rfl,
          retryStep_fail_cont _ 1 0 none (by rw [hm0]),
          retryStep_fail_cont _ 0 1 _ (by rw [hm1]),
          retryStep_pass _ 0 2 _ (by rw [hm2])]
      simp [hm0, hm1, hm2]
    have hrun : runSteps o.stepExec opts.retryCount opts.screenshotOnFailure [s] 0 =
        { results := [⟨0, s.action, true, none⟩], passed := true, error := none,
          retries := 2, screenshot := false,
          events := [Event.stepCall 0 0, Event.pause (some 1000),
                     Event.stepCall 0 1, Event.pause (some 1000), Event.stepCall 0 2] } := by
      rw [show ([s] : List StoryStep) = s :: [] from rfl]
      unfold runSteps
      rw [hrc, show (2 : Nat) + 1 = 3 from rfl, hretry]
      simp [runSteps]
    unfold executeStory
    rw [hcred, hgoto]
    unfold storyMain
    rw [hsteps, hrun, hver]
    simp [runVerifications, countStepCalls, isStepCall]

/-- Witness for C1: a concrete single-step story under `retryCount = 2` whose
    step fails twice then passes — passed result, 2 retries, 3 calls. -/
theorem C1_witness :
    (executeStory { id := "s", steps := [{ action := "click", selector := some "#b" }] }
        "http://base" { retryCount := 2, screenshotOnFailure := true }
        { authSuccess := true, authErrMsg := "", gotoBaseError := none,
          stepExec := fun _ k => if k == 2 then (true, none) else (false, some "err"),
          page := ⟨"u", fun _ => true, fun _ => true⟩, uploadUrl := none }).1.passed = true
    ∧ (executeStory { id := "s", steps := [{ action := "click", selector := some "#b" }] }
        "http://base" { retryCount := 2, screenshotOnFailure := true }
        { authSuccess := true, authErrMsg := "", gotoBaseError := none,
          stepExec := fun _ k => if k == 2 then (true, none) else (false, some "err"),
          page := ⟨"u", fun _ => true, fun _ => true⟩, uploadUrl := none }).1.retries = 2
    ∧ countStepCalls
        (executeStory { id := "s", steps := [{ action := "click", selector := some "#b" }] }
          "http://base" { retryCount := 2, screenshotOnFailure := true }
          { authSuccess := true, authErrMsg := "", gotoBaseError := none,
            stepExec := fun _ k => if k == 2 then (true, none) else (false, some "err"),
            page := ⟨"u", fun _ => true, fun _ => true⟩, uploadUrl := none }).2 = 3 := by
  have h := (C1_step_retry_policy.2
    { id := "s", steps := [{ action := "click", selector := some "#b" }] } "http://base"
    { retryCount := 2, screenshotOnFailure := true }
    { authSuccess := true, authErrMsg := "", gotoBaseError := none,
      stepExec := fun _ k => if k == 2 then (true, none) else (false, some "err"),
      page := ⟨"u", fun _ => true, fun _ => true⟩, uploadUrl := none }
    { action := "click", selector := some "#b" } (some "err") (some "err")
    rfl rfl rfl rfl rfl (by decide) (by decide) (by decide))
  exact ⟨h.1, h.2.1, h.2.2.2⟩

/-! ## Orchestrator trace lemmas (for C4 and C5) -/

/-- Result rows inserted while processing one story carry that story's id. -/
theorem processOneStory_insert_id (env : Environment) (creds : String → Option UserCredentials)
    (outcome : RunnerOutcome) (story : StoryRow) (i : Nat) (c : Counters) (row : ResultRow)
    (h : RunEvent.insertResult row ∈ (processOneStory env creds outcome story i c).2) :
    row.story_id = story.id := by
  unfold processOneStory at h
  rcases hsk : skipReason env creds story with _ | reason
  · rw [hsk] at h
    rcases outcome with ⟨p, e, r⟩ | msg
    · simp at h
      rw [h]
    · simp at h
      rw [h]
  · rw [hsk] at h
    simp at h
    rw [h]

/-- The Story Runner is only ever invoked with the current story index. -/
theorem processOneStory_call_idx (env : Environment) (creds : String → Option UserCredentials)
    (outcome : RunnerOutcome) (story : StoryRow) (i : Nat) (c : Counters) (j : Nat)
    (h : RunEvent.callStoryRunner j ∈ (processOneStory env creds outcome story i c).2) :
    j = i := by
  unfold processOneStory at h
  rcases hsk : skipReason env creds story with _ | reason
  · rw [hsk] at h
    rcases outcome with ⟨p, e, r⟩ | msg <;> simpa using h
  · rw [hsk] at h
    simp at h

/-- Result rows inserted by the loop belong to stories of the processed list. -/
theorem runStoriesAux_insert_id (env : Environment) (creds : String → Option UserCredentials)
    (oracle : RunOracle) :
    ∀ (l : List StoryRow) (i : Nat) (c : Counters) (row : ResultRow),
      RunEvent.insertResult row ∈ (runStoriesAux env creds oracle l i c).2.1 →
      row.story_id ∈ l.map StoryRow.id := by
  intro l
  induction l with
  | nil =>
    intro i c row h
    simp [runStoriesAux] at h
  | cons s rest ih =>
    intro i c row h
    unfold runStoriesAux at h
    by_cases hc : oracle.status i = "cancelled"
    · simp [hc] at h
    · simp [hc] at h
      rcases h with h | h
      · simp [processOneStory_insert_id env creds (oracle.runStory i) s i c row h]
      · simp [ih _ _ _ h]

/-- Story-runner invocations of the loop stay within the processed range. -/
theorem runStoriesAux_call_idx (env : Environment) (creds : String → Option UserCredentials)
    (oracle : RunOracle) :
    ∀ (l : List StoryRow) (i : Nat) (c : Counters) (j : Nat),
      RunEvent.callStoryRunner j ∈ (runStoriesAux env creds oracle l i c).2.1 →
      i ≤ j ∧ j < i + l.length := by
  intro l
  induction l with
  | nil =>
    intro i c j h
    simp [runStoriesAux] at h
  | cons s rest ih =>
    intro i c j h
    unfold runStoriesAux at h
    by_cases hc : oracle.status i = "cancelled"
    · simp [hc] at h
    · simp [hc] at h
      rcases h with h | h
      · have := processOneStory_call_idx env creds (oracle.runStory i) s i c j h
        subst this
        simp only [List.length_cons]
        omega
      · have := ih _ _ _ h
        simp only [List.length_cons]
        omega

/-- The loop itself never writes the completion record. -/
theorem runStoriesAux_no_complete (env : Environment) (creds : String → Option UserCredentials)
    (oracle : RunOracle) :
    ∀ (l : List StoryRow) (i : Nat) (c : Counters) (cc : Counters),
      RunEvent.completeRun cc ∉ (runStoriesAux env creds oracle l i c).2.1 := by
  intro l
  induction l with
  | nil =>
    intro i c cc h
    simp [runStoriesAux] at h
  | cons s rest ih =>
    intro i c cc h
    unfold runStoriesAux at h
    by_cases hc : oracle.status i = "cancelled"
    · simp [hc] at h
    · simp [hc] at h
      rcases h with h | h
      · unfold processOneStory at h
        rcases hsk : skipReason env creds s with _ | reason
        · rw [hsk] at h
          cases hout : oracle.runStory i <;> rw [hout] at h <;> simp at h
        · rw [hsk] at h
          simp at h
      · exact ih _ _ _ h

/-- A run whose status first reads `cancelled` at boundary `k` behaves exactly
    like the run of the first `k` stories followed by the cancellation
    bookkeeping (clearing the current-story markers). -/
theorem runStoriesAux_cancel (env : Environment) (creds : String → Option UserCredentials)
    (oracle : RunOracle) :
    ∀ (k : Nat) (l : List StoryRow) (i : Nat) (c : Counters),
      (∀ j, j < k → oracle.status (i + j) ≠ "cancelled") →
      oracle.status (i + k) = "cancelled" → k < l.length →
      runStoriesAux env creds oracle l i c =
        ((runStoriesAux env creds oracle (l.take k) i c).1,
         (runStoriesAux env creds oracle (l.take k) i c).2.1
           ++ [RunEvent.cancelCheck (i + k), RunEvent.clearCurrent],
         true) := by
  intro k
  induction k with
  | zero =>
    intro l i c hbefore hcancel hlen
    cases l with
    | nil => simp at hlen
    | cons s rest =>
      rw [Nat.add_zero] at hcancel
      simp [runStoriesAux, hcancel]
  | succ m ih =>
    intro l i c hbefore hcancel hlen
    cases l with
    | nil => simp at hlen
    | cons s rest =>
      have h0 : ¬ oracle.status i = "cancelled" := by
        have := hbefore 0 (Nat.succ_pos m)
        simpa using this
      have hrest := ih rest (i + 1) (processOneStory env creds (oracle.runStory i) s i c).1
        (fun j hj => by
          have h2 := hbefore (j + 1) (by omega)
          rw [show i + 1 + j = i + (j + 1) from by omega]
          exact h2)
        (by rw [show i + 1 + m = i + (m + 1) from by omega]; exact hcancel)
        (by simpa using Nat.lt_of_succ_lt_succ hlen)
      rw [show i + (m + 1) = i + 1 + m from by omega]
      simp only [List.take_succ_cons]
      unfold runStoriesAux
      simp only [h0, if_neg, ite_false]
      rw [hrest]
      simp

/-! ## Claim C4 -/

/-- Claim C4: when the external status first reads `cancelled` at the boundary
    before story `k` (checks happen only at story boundaries), the orchestrator
    clears the current-story markers and returns at once: the whole run equals
    the run of the first `k` stories plus the cancellation bookkeeping, the
    Story Runner is invoked only for stories before `k`, results are persisted
    only for stories of the first `k`, the run is never marked completed, and
    the persisted counters are exactly those of the first `k` stories. -/
theorem C4_cooperative_cancellation (env : Environment)
    (creds : String → Option UserCredentials) (oracle : RunOracle)
    (stories : List StoryRow) (k : Nat)
    (hk : k < stories.length)
    (hbefore : ∀ j, j < k → oracle.status j ≠ "cancelled")
    (hcancel : oracle.status k = "cancelled") :
    executeTestRun env creds oracle stories =
      ((runStoriesAux env creds oracle (stories.take k) 0 ⟨0, 0, 0⟩).1,
       (runStoriesAux env creds oracle (stories.take k) 0 ⟨0, 0, 0⟩).2.1
         ++ [RunEvent.cancelCheck k, RunEvent.clearCurrent])
    ∧ (∀ j, RunEvent.callStoryRunner j ∈ (executeTestRun env creds oracle stories).2 → j < k)
    ∧ (∀ row, RunEvent.insertResult row ∈ (executeTestRun env creds oracle stories).2 →
        row.story_id ∈ (stories.take k).map StoryRow.id)
    ∧ (∀ cc, RunEvent.completeRun cc ∉ (executeTestRun env creds oracle stories).2)
    ∧ persistSeq (executeTestRun env creds oracle stories).2
        = persistSeq (runStoriesAux env creds oracle (stories.take k) 0 ⟨0, 0, 0⟩).2.1 := by
  have hmain := runStoriesAux_cancel env creds oracle k stories 0 ⟨0, 0, 0⟩
    (fun j hj => by simpa using hbefore j hj) (by simpa using hcancel) hk
  have hfull : executeTestRun env creds oracle stories =
      ((runStoriesAux env creds oracle (stories.take k) 0 ⟨0, 0, 0⟩).1,
       (runStoriesAux env creds oracle (stories.take k) 0 ⟨0, 0, 0⟩).2.1
         ++ [RunEvent.cancelCheck k, RunEvent.clearCurrent]) := by
    unfold executeTestRun
    rw [hmain]
    simp
  refine ⟨hfull, ?_, ?_, ?_, ?_⟩
  · intro j hj
    rw [hfull] at hj
    simp at hj
    have := runStoriesAux_call_idx env creds oracle (stories.take k) 0 ⟨0, 0, 0⟩ j hj
    have hlen : (stories.take k).length ≤ k := List.length_take_le _ _
    omega
  · intro row hrow
    rw [hfull] at hrow
    simp at hrow
    exact runStoriesAux_insert_id env creds oracle (stories.take k) 0 ⟨0, 0, 0⟩ row hrow
  · intro cc hcc
    rw [hfull] at hcc
    simp at hcc
    exact runStoriesAux_no_complete env creds oracle (stories.take k) 0 ⟨0, 0, 0⟩ cc hcc
  · rw [hfull]
    simp [persistSeq, persistedOf]

/-- Witness for C4: a concrete 5-story batch cancelled between story 2 and
    story 3 — stories 3 to 5 are unexecuted and unresulted, no completion is
    written, and the counters are those of stories 1 and 2 alone. -/
theorem C4_witness :
    executeTestRun { base_url := "http://b" } (fun _ => none)
        ⟨fun i => if i < 2 then "running" else "cancelled",
         fun i => RunnerOutcome.ok (i == 0) none 0⟩
        [⟨"s1", "n1", "t1", none⟩, ⟨"s2", "n2", "t2", none⟩, ⟨"s3", "n3", "t3", none⟩,
         ⟨"s4", "n4", "t4", none⟩, ⟨"s5", "n5", "t5", none⟩] =
      ((runStoriesAux { base_url := "http://b" } (fun _ => none)
          ⟨fun i => if i < 2 then "running" else "cancelled",
           fun i => RunnerOutcome.ok (i == 0) none 0⟩
          ([⟨"s1", "n1", "t1", none⟩, ⟨"s2", "n2", "t2", none⟩, ⟨"s3", "n3", "t3", none⟩,
            ⟨"s4", "n4", "t4", none⟩, ⟨"s5", "n5", "t5", none⟩].take 2) 0 ⟨0, 0, 0⟩).1,
       (runStoriesAux { base_url := "http://b" } (fun _ => none)
          ⟨fun i => if i < 2 then "running" else "cancelled",
           fun i => RunnerOutcome.ok (i == 0) none 0⟩
          ([⟨"s1", "n1", "t1", none⟩, ⟨"s2", "n2", "t2", none⟩, ⟨"s3", "n3", "t3", none⟩,
            ⟨"s4", "n4", "t4", none⟩, ⟨"s5", "n5", "t5", none⟩].take 2) 0 ⟨0, 0, 0⟩).2.1
         ++ [RunEvent.cancelCheck 2, RunEvent.clearCurrent])
    ∧ ∀ row, RunEvent.insertResult row ∈
        (executeTestRun { base_url := "http://b" } (fun _ => none)
          ⟨fun i => if i < 2 then "running" else "cancelled",
           fun i => RunnerOutcome.ok (i == 0) none 0⟩
          [⟨"s1", "n1", "t1", none⟩, ⟨"s2", "n2", "t2", none⟩, ⟨"s3", "n3", "t3", none⟩,
           ⟨"s4", "n4", "t4", none⟩, ⟨"s5", "n5", "t5", none⟩]).2 →
        row.story_id ∈ ["s1", "s2"] := by
  have h := C4_cooperative_cancellation { base_url := "http://b" } (fun _ => none)
    ⟨fun i => if i < 2 then "running" else "cancelled",
     fun i => RunnerOutcome.ok (i == 0) none 0⟩
    [⟨"s1", "n1", "t1", none⟩, ⟨"s2", "n2", "t2", none⟩, ⟨"s3", "n3", "t3", none⟩,
     ⟨"s4", "n4", "t4", none⟩, ⟨"s5", "n5", "t5", none⟩] 2
    (by decide) (by intro j hj; interval_cases j <;> decide) (by decide)
  refine ⟨h.1, ?_⟩
  intro row hrow
  have := h.2.2.1 row hrow
  simpa using this

/-! ## Claim C5 -/

theorem Counters.le_rfl (a : Counters) : Counters.le a a := by
  unfold Counters.le
  omega

theorem Counters.le_comp {a b c : Counters} (hab : Counters.le a b) (hbc : Counters.le b c) :
    Counters.le a c := by
  unfold Counters.le at *
  omega

theorem persistSeq_append (a b : List RunEvent) :
    persistSeq (a ++ b) = persistSeq a ++ persistSeq b := by
  simp [persistSeq]

/-- One story's processing only grows the counters, and persists either
    exactly the updated counters or nothing. -/
theorem processOneStory_counters_persist (env : Environment)
    (creds : String → Option UserCredentials) (outcome : RunnerOutcome)
    (story : StoryRow) (i : Nat) (c : Counters) :
    Counters.le c (processOneStory env creds outcome story i c).1
    ∧ (persistSeq (processOneStory env creds outcome story i c).2
        = [(processOneStory env creds outcome story i c).1]
      ∨ persistSeq (processOneStory env creds outcome story i c).2 = []) := by
  unfold processOneStory
  rcases hsk : skipReason env creds story with _ | reason
  · rcases outcome with ⟨p, e, r⟩ | msg
    · cases p <;> simp [persistSeq, persistedOf, Counters.le]
    · simp [persistSeq, persistedOf, Counters.le]
  · simp [persistSeq, persistedOf, Counters.le]

theorem chain_weaken {a b : Counters} {l : List Counters} (hab : Counters.le a b)
    (h : List.Chain Counters.le b l) : List.Chain Counters.le a l := by
  cases h with
  | nil => exact List.Chain.nil
  | cons hbx hx => exact List.Chain.cons (Counters.le_comp hab hbx) hx

theorem chain_drop_last (b : Counters) :
    ∀ (l : List Counters) (a : Counters),
      List.Chain Counters.le a (l ++ [b]) → List.Chain Counters.le a l := by
  intro l
  induction l with
  | nil => intro a _; exact List.Chain.nil
  | cons x xs ih =>
    intro a h
    cases h with
    | cons hax hx => exact List.Chain.cons hax (ih x hx)

/-- Along the loop, every persisted snapshot (and the final counters) forms a
    non-decreasing chain starting from the entry counters. -/
theorem runStoriesAux_chain (env : Environment) (creds : String → Option UserCredentials)
    (oracle : RunOracle) :
    ∀ (l : List StoryRow) (i : Nat) (c : Counters),
      List.Chain Counters.le c
        (persistSeq (runStoriesAux env creds oracle l i c).2.1
          ++ [(runStoriesAux env creds oracle l i c).1]) := by
  intro l
  induction l with
  | nil =>
    intro i c
    simp [runStoriesAux, persistSeq]
    exact Counters.le_rfl c
  | cons s rest ih =>
    intro i c
    by_cases hc : oracle.status i = "cancelled"
    · simp [runStoriesAux, hc, persistSeq, persistedOf]
      exact Counters.le_rfl c
    · have hp := processOneStory_counters_persist env creds (oracle.runStory i) s i c
      have hunfold : runStoriesAux env creds oracle (s :: rest) i c =
          ((runStoriesAux env creds oracle rest (i + 1)
              (processOneStory env creds (oracle.runStory i) s i c).1).1,
           RunEvent.cancelCheck i :: (processOneStory env creds (oracle.runStory i) s i c).2
             ++ (runStoriesAux env creds oracle rest (i + 1)
                  (processOneStory env creds (oracle.runStory i) s i c).1).2.1,
           (runStoriesAux env creds oracle rest (i + 1)
              (processOneStory env creds (oracle.runStory i) s i c).1).2.2) := by
        rw [runStoriesAux]
        simp [hc]
      rw [hunfold]
      have hcc : persistSeq (RunEvent.cancelCheck i ::
          (processOneStory env creds (oracle.runStory i) s i c).2
            ++ (runStoriesAux env creds oracle rest (i + 1)
                (processOneStory env creds (oracle.runStory i) s i c).1).2.1)
          = persistSeq (processOneStory env creds (oracle.runStory i) s i c).2
            ++ persistSeq (runStoriesAux env creds oracle rest (i + 1)
                (processOneStory env creds (oracle.runStory i) s i c).1).2.1 := by
        rw [show RunEvent.cancelCheck i ::
            (processOneStory env creds (oracle.runStory i) s i c).2
              ++ (runStoriesAux env creds oracle rest (i + 1)
                  (processOneStory env creds (oracle.runStory i) s i c).1).2.1
          = (RunEvent.cancelCheck i :: (processOneStory env creds (oracle.runStory i) s i c).2)
              ++ (runStoriesAux env creds oracle rest (i + 1)
                  (processOneStory env creds (oracle.runStory i) s i c).1).2.1 from rfl]
        rw [persistSeq_append]
        simp [persistSeq, persistedOf]
      rw [hcc]
      rcases hp.2 with hone | hone
      · rw [hone, List.append_assoc]
        exact List.Chain.cons hp.1 (ih _ _)
      · rw [hone]
        simp only [List.nil_append]
        exact chain_weaken hp.1 (ih _ _)

/-- Counterexample to C5 as stated: in a 2-story run whose first story's
    `executeStory` call throws, story 1 completes (its failed result row is
    inserted) but no counter values are persisted before story 2 begins — the
    exception path skips the run-record update. -/
theorem C5_counterexample :
    lastPersistBefore 1
      (executeTestRun { base_url := "http://b" } (fun _ => none)
        ⟨fun _ => "running", fun _ => RunnerOutcome.threw "boom"⟩
        [⟨"s1", "n1", "t1", none⟩, ⟨"s2", "n2", "t2", none⟩]).2 none = none
    ∧ RunEvent.insertResult ⟨"s1", false, some "boom", 0⟩ ∈
        (executeTestRun { base_url := "http://b" } (fun _ => none)
          ⟨fun _ => "running", fun _ => RunnerOutcome.threw "boom"⟩
          [⟨"s1", "n1", "t1", none⟩, ⟨"s2", "n2", "t2", none⟩]).2 := by
  decide

/-- Claim C5 (amended): after every skipped story and after every story whose
    `executeStory` call returns a result, the updated pass/fail/skip counters
    are persisted as the final action of that story's processing, before the
    next story begins; when `executeStory` throws, the failure is counted and
    the error row inserted but no counters are persisted during that story's
    processing (they reach the record only at the next persistence point); in
    every run the sequence of persisted counter snapshots an external observer
    can poll is monotonically non-decreasing. -/
theorem C5_counters_monotone_persistence :
    (∀ (env : Environment) (creds : String → Option UserCredentials)
        (outcome : RunnerOutcome) (story : StoryRow) (i : Nat) (c : Counters)
        (reason : String),
      skipReason env creds story = some reason →
      persistSeq (processOneStory env creds outcome story i c).2
        = [(processOneStory env creds outcome story i c).1])
    ∧ (∀ (env : Environment) (creds : String → Option UserCredentials)
        (story : StoryRow) (i : Nat) (c : Counters) (p : Bool) (e : Option String) (r : Nat),
      skipReason env creds story = none →
      persistSeq (processOneStory env creds (RunnerOutcome.ok p e r) story i c).2
        = [(processOneStory env creds (RunnerOutcome.ok p e r) story i c).1])
    ∧ (∀ (env : Environment) (creds : String → Option UserCredentials)
        (story : StoryRow) (i : Nat) (c : Counters) (msg : String),
      skipReason env creds story = none →
      persistSeq (processOneStory env creds (RunnerOutcome.threw msg) story i c).2 = []
      ∧ (processOneStory env creds (RunnerOutcome.threw msg) story i c).1
          = { c with failed := c.failed + 1 }
      ∧ RunEvent.insertResult
          { story_id := story.id, passed := false, error := some msg, retries := 0 }
          ∈ (processOneStory env creds (RunnerOutcome.threw msg) story i c).2)
    ∧ ∀ (env : Environment) (creds : String → Option UserCredentials)
        (oracle : RunOracle) (stories : List StoryRow),
        List.Chain Counters.le { passed := 0, failed := 0, skipped := 0 }
          (persistSeq (executeTestRun env creds oracle stories).2) := by
  refine ⟨?_, ?_, ?_, ?_⟩
  · intro env creds outcome story i c reason hsk
    unfold processOneStory
    rw [hsk]
    simp [persistSeq, persistedOf]
  · intro env creds story i c p e r hsk
    unfold processOneStory
    rw [hsk]
    simp [persistSeq, persistedOf]
  · intro env creds story i c msg hsk
    unfold processOneStory
    rw [hsk]
    simp [persistSeq, persistedOf]
  · intro env creds oracle stories
    have hchain := runStoriesAux_chain env creds oracle stories 0 ⟨0, 0, 0⟩
    unfold executeTestRun
    by_cases hflag : (runStoriesAux env creds oracle stories 0
        { passed := 0, failed := 0, skipped := 0 }).2.2
    · simp only [hflag, if_true, ite_true]
      exact chain_drop_last _ _ _ hchain
    · simp only [hflag, if_false, ite_false, Bool.false_eq_true]
      rw [persistSeq_append]
      simpa [persistSeq, persistedOf] using hchain

/-- Witness for C5 (amended): a concrete returned-result story persists its
    counters; a concrete throwing story persists none. -/
theorem C5_witness :
    persistSeq (processOneStory { base_url := "http://b" } (fun _ => none)
        (RunnerOutcome.ok true none 0) ⟨"s1", "n", "t", none⟩ 0 ⟨0, 0, 0⟩).2
      = [(processOneStory { base_url := "http://b" } (fun _ => none)
          (RunnerOutcome.ok true none 0) ⟨"s1", "n", "t", none⟩ 0 ⟨0, 0, 0⟩).1]
    ∧ persistSeq (processOneStory { base_url := "http://b" } (fun _ => none)
        (RunnerOutcome.threw "boom") ⟨"s1", "n", "t", none⟩ 0 ⟨0, 0, 0⟩).2 = [] :=
  ⟨C5_counters_monotone_persistence.2.1 { base_url := "http://b" } (fun _ => none)
      ⟨"s1", "n", "t", none⟩ 0 ⟨0, 0, 0⟩ true none 0 rfl,
   (C5_counters_monotone_persistence.2.2.1 { base_url := "http://b" } (fun _ => none)
      ⟨"s1", "n", "t", none⟩ 0 ⟨0, 0, 0⟩ "boom" rfl).1⟩

/-! ## Crypto lemmas (for C9) -/

theorem b64Val_b64Char : ∀ v, v < 64 → b64Val (b64Char v) = some v := by
  decide

theorem b64Char_ne_eq (n : Nat) : b64Char n ≠ '=' ∧ b64Char n ≠ ':' := by
  by_cases h : n < 64
  · have hb : ∀ m, m < 64 → b64Char m ≠ '=' ∧ b64Char m ≠ ':' := by decide
    exact hb n h
  · have hlen : base64Alphabet.length ≤ n := by
      have : base64Alphabet.length = 64 := by decide
      omega
    unfold b64Char
    rw [List.getD_eq_getElem?_getD, List.getElem?_eq_none hlen]
    decide

theorem base64Encode_no_colon : ∀ bs, ':' ∉ base64Encode bs := by
  intro bs
  induction bs using base64Encode.induct with
  | case1 => simp [base64Encode]
  | case2 a =>
    simp [base64Encode]
    exact ⟨fun h => (b64Char_ne_eq _).2 h.symm, fun h => (b64Char_ne_eq _).2 h.symm⟩
  | case3 a b =>
    simp [base64Encode]
    exact ⟨fun h => (b64Char_ne_eq _).2 h.symm, fun h => (b64Char_ne_eq _).2 h.symm,
           fun h => (b64Char_ne_eq _).2 h.symm⟩
  | case4 a b c rest ih =>
    simp [base64Encode]
    exact ⟨fun h => (b64Char_ne_eq _).2 h.symm, fun h => (b64Char_ne_eq _).2 h.symm,
           fun h => (b64Char_ne_eq _).2 h.symm, fun h => (b64Char_ne_eq _).2 h.symm, ih⟩

/-- Base64 decoding inverts encoding on byte lists. -/
theorem base64Decode_encode : ∀ bs, (∀ b ∈ bs, b < 256) →
    base64Decode (base64Encode bs) = some bs := by
  intro bs
  induction bs using base64Encode.induct with
  | case1 => intro _; rfl
  | case2 a =>
    intro hb
    have ha : a < 256 := hb a (by simp)
    show base64Decode (b64Char (a / 4) :: b64Char (a % 4 * 16) :: '=' :: '=' :: []) = some [a]
    rw [base64Decode]
    rw [if_pos rfl, if_pos ⟨rfl, rfl⟩]
    rw [b64Val_b64Char _ (by omega), b64Val_b64Char _ (by omega)]
    simp only [Option.some.injEq]
    congr 1
    omega
  | case3 a b =>
    intro hb
    have ha : a < 256 := hb a (by simp)
    have hbb : b < 256 := hb b (by simp)
    show base64Decode (b64Char (a / 4) :: b64Char (a % 4 * 16 + b / 16)
        :: b64Char (b % 16 * 4) :: '=' :: []) = some [a, b]
    rw [base64Decode]
    rw [if_neg (b64Char_ne_eq _).1, if_pos rfl, if_pos rfl]
    rw [b64Val_b64Char _ (by omega), b64Val_b64Char _ (by omega), b64Val_b64Char _ (by omega)]
    simp only [Option.some.injEq]
    congr 1
    · omega
    · congr 1
      omega
  | case4 a b c rest ih =>
    intro hb
    have ha : a < 256 := hb a (by simp)
    have hbb : b < 256 := hb b (by simp)
    have hc : c < 256 := hb c (by simp)
    have hrest : ∀ x ∈ rest, x < 256 := fun x hx => hb x (by simp [hx])
    show base64Decode (b64Char (a / 4) :: b64Char (a % 4 * 16 + b / 16)
        :: b64Char (b % 16 * 4 + c / 64) :: b64Char (c % 64) :: base64Encode rest)
      = some (a :: b :: c :: rest)
    rw [base64Decode]
    rw [if_neg (b64Char_ne_eq _).1, if_neg (b64Char_ne_eq _).1]
    rw [b64Val_b64Char _ (by omega), b64Val_b64Char _ (by omega),
        b64Val_b64Char _ (by omega), b64Val_b64Char _ (by omega), ih hrest]
    simp only [Option.some.injEq]
    congr 1
    · omega
    · congr 1
      · omega
      · congr 1
        omega

/-- Every unicode scalar value is below `0x110000`. -/
theorem char_toNat_lt (c : Char) : c.toNat < 1114112 := by
  rcases c.valid with h | ⟨_, h2⟩
  · have := UInt32.toNat_lt_of_lt (n := c.val) (m := 0xd800) (by decide) h
    simp only [Char.toNat]
    omega
  · have := UInt32.toNat_lt_of_lt (n := c.val) (m := 0x110000) (by decide) h2
    simp only [Char.toNat]
    omega

theorem contByte_true (b : Nat) (h1 : 0x80 ≤ b) (h2 : b < 0xC0) : contByte b = true := by
  unfold contByte
  simp only [Bool.and_eq_true, decide_eq_true_eq]
  omega

/-- The encoding of a scalar is a nonempty byte list whose head byte leads
    `utf8DecodeOne` to recover exactly that scalar and the remaining input. -/
theorem utf8DecodeOne_encodeChar (c : Char) :
    ∃ b tail, utf8EncodeChar c = b :: tail
      ∧ ∀ bs, utf8DecodeOne b (tail ++ bs) = some (c.toNat, bs) := by
  have hval : c.toNat < 1114112 := char_toNat_lt c
  unfold utf8EncodeChar
  by_cases h1 : c.toNat < 0x80
  · rw [if_pos h1]
    refine ⟨c.toNat, [], rfl, fun bs => ?_⟩
    unfold utf8DecodeOne
    rw [if_pos h1]
    rfl
  · rw [if_neg h1]
    by_cases h2 : c.toNat < 0x800
    · rw [if_pos h2]
      refine ⟨_, _, rfl, fun bs => ?_⟩
      have hs2 : utf8Scalar2 (0xC0 + c.toNat / 64) (0x80 + c.toNat % 64) = some c.toNat := by
        unfold utf8Scalar2
        rw [if_pos (contByte_true (0x80 + c.toNat % 64) (by omega) (by omega))]
        have hover : ¬ ((0xC0 + c.toNat / 64 - 0xC0) * 64 + (0x80 + c.toNat % 64 - 0x80)
            < 0x80) := by omega
        rw [if_neg hover]
        have harith : (0xC0 + c.toNat / 64 - 0xC0) * 64 + (0x80 + c.toNat % 64 - 0x80)
            = c.toNat := by omega
        rw [harith]
      simp only [List.cons_append, List.nil_append]
      unfold utf8DecodeOne
      rw [if_neg (by omega), if_neg (by omega), if_pos (by omega)]
      dsimp only
      rw [hs2]
      rfl
    · rw [if_neg h2]
      by_cases h3 : c.toNat < 0x10000
      · rw [if_pos h3]
        refine ⟨_, _, rfl, fun bs => ?_⟩
        have hs3 : utf8Scalar3 (0xE0 + c.toNat / 4096) (0x80 + c.toNat / 64 % 64)
            (0x80 + c.toNat % 64) = some c.toNat := by
          unfold utf8Scalar3
          rw [if_pos (by rw [contByte_true (0x80 + c.toNat / 64 % 64) (by omega) (by omega),
                             contByte_true (0x80 + c.toNat % 64) (by omega) (by omega)]; rfl)]
          have hover : ¬ ((0xE0 + c.toNat / 4096 - 0xE0) * 4096
              + (0x80 + c.toNat / 64 % 64 - 0x80) * 64 + (0x80 + c.toNat % 64 - 0x80)
              < 0x800) := by omega
          rw [if_neg hover]
          have harith : (0xE0 + c.toNat / 4096 - 0xE0) * 4096
              + (0x80 + c.toNat / 64 % 64 - 0x80) * 64 + (0x80 + c.toNat % 64 - 0x80)
              = c.toNat := by omega
          rw [harith]
        simp only [List.cons_append, List.nil_append]
        unfold utf8DecodeOne
        rw [if_neg (by omega), if_neg (by omega), if_neg (by omega), if_pos (by omega)]
        dsimp only
        rw [hs3]
        rfl
      · rw [if_neg h3]
        refine ⟨_, _, rfl, fun bs => ?_⟩
        have hs4 : utf8Scalar4 (0xF0 + c.toNat / 262144) (0x80 + c.toNat / 4096 % 64)
            (0x80 + c.toNat / 64 % 64) (0x80 + c.toNat % 64) = some c.toNat := by
          unfold utf8Scalar4
          rw [if_pos (by rw [contByte_true (0x80 + c.toNat / 4096 % 64) (by omega) (by omega),
                             contByte_true (0x80 + c.toNat / 64 % 64) (by omega) (by omega),
                             contByte_true (0x80 + c.toNat % 64) (by omega) (by omega)]; rfl)]
          have hover : ((0xF0 + c.toNat / 262144 - 0xF0) * 262144
                + (0x80 + c.toNat / 4096 % 64 - 0x80) * 4096
                + (0x80 + c.toNat / 64 % 64 - 0x80) * 64 + (0x80 + c.toNat % 64 - 0x80)
                < 0x10000
              || 0x10FFFF < (0xF0 + c.toNat / 262144 - 0xF0) * 262144
                + (0x80 + c.toNat / 4096 % 64 - 0x80) * 4096
                + (0x80 + c.toNat / 64 % 64 - 0x80) * 64 + (0x80 + c.toNat % 64 - 0x80))
              = false := by
            simp only [Bool.or_eq_false_iff, decide_eq_false_iff_not]
            constructor <;> omega
          rw [if_neg (by rw [hover]; exact Bool.false_ne_true)]
          have harith : (0xF0 + c.toNat / 262144 - 0xF0) * 262144
              + (0x80 + c.toNat / 4096 % 64 - 0x80) * 4096
              + (0x80 + c.toNat / 64 % 64 - 0x80) * 64 + (0x80 + c.toNat % 64 - 0x80)
              = c.toNat := by omega
          rw [harith]
        simp only [List.cons_append, List.nil_append]
        unfold utf8DecodeOne
        rw [if_neg (by omega), if_neg (by omega), if_neg (by omega), if_neg (by omega),
            if_pos (by omega)]
        dsimp only
        rw [hs4]
        rfl

/-- With fuel at least the number of characters, the decoding loop inverts
    the encoding. -/
theorem utf8DecodeAux_encode : ∀ (cs : List Char) (fuel : Nat), cs.length ≤ fuel →
    utf8DecodeAux fuel (utf8Encode cs) = some cs := by
  intro cs
  induction cs with
  | nil =>
    intro fuel _
    rw [show utf8Encode [] = [] from rfl]
    cases fuel <;> rfl
  | cons c rest ih =>
    intro fuel hlen
    obtain ⟨b, tail, henc, hone⟩ := utf8DecodeOne_encodeChar c
    have hfe : utf8Encode (c :: rest) = b :: (tail ++ utf8Encode rest) := by
      show utf8EncodeChar c ++ utf8Encode rest = _
      rw [henc]
      simp
    cases fuel with
    | zero => simp at hlen
    | succ f =>
      rw [hfe, utf8DecodeAux, hone]
      dsimp only
      rw [ih f (by simp at hlen; omega), Char.ofNat_toNat]
      rfl

/-- Encoding never shrinks the character count. -/
theorem utf8Encode_length : ∀ cs : List Char, cs.length ≤ (utf8Encode cs).length := by
  intro cs
  induction cs with
  | nil => simp [utf8Encode]
  | cons c rest ih =>
    obtain ⟨b, tail, henc, _⟩ := utf8DecodeOne_encodeChar c
    have : utf8Encode (c :: rest) = b :: (tail ++ utf8Encode rest) := by
      show utf8EncodeChar c ++ utf8Encode rest = _
      rw [henc]
      simp
    rw [this]
    simp only [List.length_cons, List.length_append]
    omega

/-- UTF-8 decoding inverts encoding on strings. -/
theorem utf8Decode_encode : ∀ cs : List Char, utf8Decode (utf8Encode cs) = some cs := by
  intro cs
  unfold utf8Decode
  exact utf8DecodeAux_encode cs _ (utf8Encode_length cs)

theorem splitCh_no_sep (sep : Char) : ∀ p, sep ∉ p → splitCh sep p = [p] := by
  intro p
  induction p with
  | nil => intro _; rfl
  | cons c rest ih =>
    intro h
    have hc : ¬ c = sep := fun hh => h (by simp [hh])
    have hr : sep ∉ rest := fun hh => h (by simp [hh])
    rw [splitCh, if_neg hc, ih hr]

theorem splitCh_sep_append (sep : Char) :
    ∀ p rest, sep ∉ p → splitCh sep (p ++ sep :: rest) = p :: splitCh sep rest := by
  intro p
  induction p with
  | nil =>
    intro rest _
    simp only [List.nil_append]
    rw [splitCh, if_pos rfl]
  | cons c p' ih =>
    intro rest h
    have hc : ¬ c = sep := fun hh => h (by simp [hh])
    have hp : sep ∉ p' := fun hh => h (by simp [hh])
    simp only [List.cons_append]
    rw [splitCh, if_neg hc, ih rest hp]

/-! ## Claim C9 -/

/-- Claim C9: with the encryption key configured (the derived-key function
    `kdf` and the Node AES-256-GCM primitives `enc`/`dec` — satisfying the
    cipher inverse property and producing bytes — taken as parameters),
    `decrypt (encrypt plaintext) = plaintext` for every unicode plaintext; and
    `decrypt` fails with the format error on every input that does not split
    into exactly four colon-separated fields. -/
theorem C9_decrypt_encrypt_roundtrip (kdf : List Nat → List Nat)
    (enc : List Nat → List Nat → List Nat → List Nat × List Nat)
    (dec : List Nat → List Nat → List Nat → List Nat → Option (List Nat))
    (salt iv : List Nat) (plaintext : List Char)
    (hsalt : ∀ b ∈ salt, b < 256) (hiv : ∀ b ∈ iv, b < 256)
    (htag : ∀ b ∈ (enc (kdf salt) iv (utf8Encode plaintext)).2, b < 256)
    (hct : ∀ b ∈ (enc (kdf salt) iv (utf8Encode plaintext)).1, b < 256)
    (hgcm : dec (kdf salt) iv (enc (kdf salt) iv (utf8Encode plaintext)).2
              (enc (kdf salt) iv (utf8Encode plaintext)).1
            = some (utf8Encode plaintext)) :
    decrypt kdf dec (encrypt kdf enc salt iv plaintext) = Except.ok plaintext
    ∧ ∀ cs, (splitCh ':' cs).length ≠ 4 →
        decrypt kdf dec cs = Except.error "Invalid ciphertext format" := by
  constructor
  · have hjoin : encrypt kdf enc salt iv plaintext
        = base64Encode salt ++ ':' :: (base64Encode iv
            ++ ':' :: (base64Encode (enc (kdf salt) iv (utf8Encode plaintext)).2
              ++ ':' :: base64Encode (enc (kdf salt) iv (utf8Encode plaintext)).1)) := by
      rfl
    have hsplit : splitCh ':' (encrypt kdf enc salt iv plaintext)
        = [base64Encode salt, base64Encode iv,
           base64Encode (enc (kdf salt) iv (utf8Encode plaintext)).2,
           base64Encode (enc (kdf salt) iv (utf8Encode plaintext)).1] := by
      rw [hjoin]
      rw [splitCh_sep_append ':' _ _ (base64Encode_no_colon salt),
          splitCh_sep_append ':' _ _ (base64Encode_no_colon iv),
          splitCh_sep_append ':' _ _ (base64Encode_no_colon _),
          splitCh_no_sep ':' _ (base64Encode_no_colon _)]
    unfold decrypt
    rw [hsplit]
    rw [if_neg (by simp)]
    dsimp only
    rw [base64Decode_encode salt hsalt, base64Decode_encode iv hiv,
        base64Decode_encode _ htag, base64Decode_encode _ hct]
    simp only [Option.getD_some]
    rw [hgcm]
    dsimp only
    rw [utf8Decode_encode]
    rfl
  · intro cs h
    unfold decrypt
    rw [if_pos h]

/-- Witness for C9: a concrete two-character plaintext with a trivial cipher
    instantiation round-trips, and a colon-free input is rejected with the
    format error. -/
theorem C9_witness :
    decrypt (fun s => s) (fun _ _ _ ct => some ct)
        (encrypt (fun s => s) (fun _ _ m => (m, [0])) [1, 2] [3] "ab".toList)
      = Except.ok "ab".toList
    ∧ decrypt (fun s => s) (fun _ _ _ ct => some ct) "abc".toList
      = Except.error "Invalid ciphertext format" := by
  have h := C9_decrypt_encrypt_roundtrip (fun s => s) (fun _ _ m => (m, [0]))
    (fun _ _ _ ct => some ct) [1, 2] [3] "ab".toList
    (by decide) (by decide) (by decide) (by decide) (by decide)
  exact ⟨h.1, h.2 "abc".toList (by decide)⟩

end Qay
